import Mathlib

/-!
Verification of the Git Fusion synchronization engine against its
natural-language specification.

The Python sources under consideration are shallowly embedded below:
pure string manipulation is modelled over `List Char`, Perforce server
interactions are modelled by explicit state passing, and Python
exceptions are modelled with `Except` / `Option`.

Modules embedded:
* p4gf_g2p_conflict_checker.py : G2PConflictChecker
* p4gf_lock.py                 : check_holder_alive, CounterLock.acquire
* p4gf_fastimport.py           : FastImport.__add_files, FastImport.add_commit
* p4gf_copy_to_p4.py           : change_description, G2P.copy_commit,
                                 G2P.revert_and_raise, G2P.copy
* p4gf_gitmirror.py            : GitObjectList.add_object,
                                 GitMirror.__add_object_to_p4,
                                 FilterAddFstatHandler
* p4gf_copy_to_git.py          : RevRange._existing_repo_after_commit
* p4gf_p4file.py               : P4File type predicates
-/

/-- Python strings are modelled as lists of characters. -/
abbrev Str := List Char

/-- Python `str.find`: index of the first occurrence of `needle` in
`hay`, or none (Python returns -1) when absent. -/
def pyFind : Str → Str → Option Nat
  | _, [] => some 0
  | [], _ :: _ => none
  | c :: rest, needle =>
    if needle.isPrefixOf (c :: rest) then some 0
    else match pyFind rest needle with
         | some i => some (i + 1)
         | none => none

/-- Decidable substring test: does `needle` occur inside `hay`
(Python `needle in hay`)? -/
def strContains (hay needle : Str) : Bool :=
  (pyFind hay needle).isSome

/-- Decimal rendering of a natural number, as Python `str(n)`. -/
def natToStr (n : Nat) : Str := (toString n).toList

instance exceptDecEq {ε α : Type} [DecidableEq ε] [DecidableEq α] :
    DecidableEq (Except ε α) := fun x y =>
  match x, y with
  | .ok a, .ok b =>
    if h : a = b then .isTrue (by rw [h])
    else .isFalse (fun hc => by cases hc; exact h rfl)
  | .error a, .error b =>
    if h : a = b then .isTrue (by rw [h])
    else .isFalse (fun hc => by cases hc; exact h rfl)
  | .ok _, .error _ => .isFalse (fun hc => by cases hc)
  | .error _, .ok _ => .isFalse (fun hc => by cases hc)

/-- One Python exception kind used by the embedded code.
`osError` stands for any exception that is not a `P4.P4Exception`
(`OSError`, `IOError`, ...) escaping a filesystem call. -/
inductive PyExc
  | indexError
  | runtimeError (msg : Str)
  | osError (msg : Str)
  deriving DecidableEq

/-! ## p4gf_g2p_conflict_checker.py -/

/-- `CommitChange` named tuple: a git commit sha1 paired with the
Perforce changelist number it was submitted as. -/
structure CommitChange where
  sha1 : Str
  change : Nat
  deriving DecidableEq

/-- Mutable state of `G2PConflictChecker`: the known-good list, the
index set by `check()`, and the low-water mark used to build the next
`p4 changes` query. -/
structure CheckerState where
  good : List CommitChange
  firstConflictIndex : Option Nat
  lastGoodChangeNumber : Option Nat
  deriving DecidableEq

/-- Fresh checker with an optional seed entry (the head commit's
(sha1, changelist) pair, when the mirror knows one). Mirrors
`G2PConflictChecker.__init__`. -/
def checkerInit (seed : Option CommitChange) : CheckerState :=
  match seed with
  | none => { good := [], firstConflictIndex := none, lastGoodChangeNumber := none }
  | some cc =>
      { good := [cc], firstConflictIndex := none
      , lastGoodChangeNumber := some cc.change }

/-- `G2PConflictChecker.record_commit`: append a (sha1, changelist)
pair to the known-good list. The source raises `RuntimeError` only
when BOTH arguments are falsy (`(not commit_sha1) and (not
changelist_number)`). -/
def recordCommit (st : CheckerState) (sha1 : Str) (change : Nat) :
    Except PyExc CheckerState :=
  if sha1 = [] ∧ change = 0 then
    .error (.runtimeError "Cannot record a partial git commit".toList)
  else
    .ok { st with good := st.good ++ [{ sha1 := sha1, change := change }] }

/-- Lock-step walk of `find_conflict_index`: pop from known-good and
from the (already reversed, oldest-first) changes list until a
mismatch; mirrors the `while len(good) and len(changes)` loop and the
two trailing `if len(...)` returns. -/
def lockStepWalk : List Nat → List Nat → Nat → Option Nat
  | g :: gs, c :: cs, idx =>
    if g = c then lockStepWalk gs cs (idx + 1) else some idx
  | _ :: _, [], idx => some idx
  | [], _ :: _, idx => some idx
  | [], [], _ => none

/-- `G2PConflictChecker.find_conflict_index`. Takes the `p4 changes`
output (newest first, as the server reports it); reverses it; drops
stale leading known-good entries not present in the window; then does
the lock-step comparison. Returns the conflict index (if any) and the
updated state (`last_good_change_number` is refreshed only in the
no-conflict case). -/
def findConflictIndex (st : CheckerState) (changesNewestFirst : List Nat) :
    Option Nat × CheckerState :=
  let changes := changesNewestFirst.reverse
  let good0 := st.good.map CommitChange.change
  let good := good0.dropWhile (fun g => decide (g ∉ changes))
  match lockStepWalk good changes 0 with
  | some i => (some i, st)
  | none =>
    match st.good.getLast? with
    | some last =>
        (none, { st with lastGoodChangeNumber := some last.change })
    | none => (none, st)

/-- `G2PConflictChecker.check`, with the `p4 changes -m5 -ssubmitted`
result supplied as input (newest first). Stores the conflict index,
then returns the changelist number at that index of the known-good
list — indexing that raises `IndexError` when the index is one past
the end (the foreign-changes case appends only to a local copy of the
list). -/
def checkerCheck (st : CheckerState) (queryNewestFirst : List Nat) :
    CheckerState × Except PyExc (Option Nat) :=
  let r := findConflictIndex st queryNewestFirst
  let st2 := { r.2 with firstConflictIndex := r.1 }
  match r.1 with
  | none => (st2, .ok none)
  | some i =>
    match st2.good.get? i with
    | some e => (st2, .ok (some e.change))
    | none => (st2, .error .indexError)

/-- `G2PConflictChecker.has_conflict`. -/
def hasConflict (st : CheckerState) : Bool :=
  st.firstConflictIndex ≠ none

/-- C1 known-good list for the concrete run: sha1s c1, c2 with
changelists 1 and 2. -/
def c1State : CheckerState :=
  { good := [ { sha1 := "c1".toList, change := 1 }
            , { sha1 := "c2".toList, change := 2 } ]
  , firstConflictIndex := none
  , lastGoodChangeNumber := some 2 }

/-- C1: with known-good list [(c1,1),(c2,2)] and a server query
reporting changelists 3,2,1 (newest first, 3 foreign), the source is
intended to report a conflict at index 2 and return changelist 3; the
code does set first_conflict_index to 2 (so has_conflict() is True),
but `check()` then evaluates `self.good[2]` and raises IndexError,
because `find_conflict_index` appended the foreign changelist to a
local copy of the known-good list instead of `self.good`. This
theorem evaluates the embedded code at that failing input. -/
theorem c1_check_raises_index_error :
    (checkerCheck c1State [3, 2, 1]).2 = Except.error PyExc.indexError ∧
    (checkerCheck c1State [3, 2, 1]).1.firstConflictIndex = some 2 ∧
    hasConflict (checkerCheck c1State [3, 2, 1]).1 = true := by
  refine ⟨rfl, rfl, rfl⟩

/-! ## p4gf_lock.py -/

/-- `HEARTBEAT_TIMEOUT_SECS`: liveness threshold for a holder's
heartbeat timestamp. -/
def heartbeatTimeoutSecs : Int := 60

/-- `LOCK_TIMEOUT_SECS`: default overall acquisition timeout. -/
def lockTimeoutSecs : Nat := 10

/-- Python `s.split(sep, maxsplit)` for a single-character separator:
split on the first `maxsplit` occurrences, keeping the remainder
intact.  Always returns at least one element. -/
def pySplitAtMost (s : Str) (sep : Char) : Nat → List Str
  | 0 => [s]
  | m + 1 =>
    let pre := s.takeWhile (fun c => decide (c ≠ sep))
    if pre.length = s.length then [s]
    else pre :: pySplitAtMost (s.drop (pre.length + 1)) sep m

/-- Python `int(str)`: strip surrounding whitespace, allow one
optional sign, then a nonempty run of decimal digits; anything else
raises ValueError (modelled as `none`). -/
def pyParseInt (s : Str) : Option Int :=
  let t := ((s.dropWhile Char.isWhitespace).reverse.dropWhile Char.isWhitespace).reverse
  match t with
  | [] => none
  | c :: rest =>
    let signed : Bool × Str :=
      if c = '-' then (true, rest)
      else if c = '+' then (false, rest)
      else (false, c :: rest)
    if signed.2 ≠ [] ∧ signed.2.all Char.isDigit then
      let v : Nat := signed.2.foldl (fun a d => a * 10 + (d.toNat - '0'.toNat)) 0
      some (if signed.1 then -(v : Int) else (v : Int))
    else none

/-- `check_holder_alive(holder)` at local clock `now`: read the third
tab-separated field of the heartbeat record; a missing third field
raises IndexError (uncaught in the source); a non-integer field is a
caught ValueError and reports the holder alive; otherwise the holder
is alive iff its timestamp is in the future or younger than
`HEARTBEAT_TIMEOUT_SECS`. -/
def checkHolderAlive (now : Int) (holder : Str) : Except PyExc Bool :=
  match (pySplitAtMost holder '\t' 3).get? 2 with
  | none => .error .indexError
  | some f =>
    match pyParseInt f with
    | none => .ok true
    | some t => .ok (decide (now < t) || decide (now - t < heartbeatTimeoutSecs))

/-- The two remote counters backing one `CounterLock`: the lock
counter (0 = free) and the holder heartbeat record. -/
structure LockSrv where
  counter : Nat
  heartbeat : Option Str
  deriving DecidableEq

/-- `CounterLock.get_heartbeat`: the heartbeat counter value, with
empty or "0" reported as no holder. -/
def getHeartbeat (srv : LockSrv) : Option Str :=
  match srv.heartbeat with
  | none => none
  | some v => if v = [] ∨ v = "0".toList then none else some v

/-- Result of `CounterLock.acquire`. -/
inductive AcqOutcome
  | acquired (srv : LockSrv) (elapsedMs : Nat)
  | timedOut (holder : Option Str) (srv : LockSrv)
  | pyError (e : PyExc) (srv : LockSrv)
  | fuelOut
  deriving DecidableEq

/-- `CounterLock.acquire` retry loop, fuel-bounded.  One iteration:
atomic increment (`_acquire_attempt`, acquired iff the new value is
1, whereupon `update_heartbeat` writes the acquirer's own record);
otherwise read the holder heartbeat; a stale holder is reclaimed by
`release()` (clear heartbeat counter, delete lock counter) and an
immediate retry with no sleep and no timeout check; an alive holder
leads to the timeout check (`timeout_secs and timeout_secs <=
elapsed`, modelled in milliseconds) and a 100 ms sleep
(`_RETRY_PERIOD`).  The local clock is `now0 + elapsedMs/1000`. -/
def acquireLoop (myBeat : Str) (timeoutSecs : Nat) (now0 : Int) :
    Nat → LockSrv → Nat → AcqOutcome
  | 0, _, _ => .fuelOut
  | fuel + 1, srv, elapsedMs =>
    let srv1 : LockSrv := { srv with counter := srv.counter + 1 }
    if srv.counter = 0 then
      .acquired { srv1 with heartbeat := some myBeat } elapsedMs
    else
      match getHeartbeat srv1 with
      | some holder =>
        match checkHolderAlive (now0 + ((elapsedMs / 1000 : Nat) : Int)) holder with
        | .error e => .pyError e srv1
        | .ok alive =>
          if alive then
            if timeoutSecs ≠ 0 ∧ timeoutSecs * 1000 ≤ elapsedMs then
              .timedOut (getHeartbeat srv1) srv1
            else
              acquireLoop myBeat timeoutSecs now0 fuel srv1 (elapsedMs + 100)
          else
            acquireLoop myBeat timeoutSecs now0 fuel
              { counter := 0, heartbeat := none } elapsedMs
      | none =>
        if timeoutSecs ≠ 0 ∧ timeoutSecs * 1000 ≤ elapsedMs then
          .timedOut none srv1
        else
          acquireLoop myBeat timeoutSecs now0 fuel srv1 (elapsedMs + 100)

/-- Helper: the heartbeat of a bumped lock server is unchanged. -/
lemma getHeartbeatBump (srv : LockSrv) (h : Str)
    (hh : srv.heartbeat = some h) (hne : ¬(h = [] ∨ h = "0".toList)) :
    getHeartbeat { srv with counter := srv.counter + 1 } = some h := by
  simp only [getHeartbeat, hh]
  rw [if_neg hne]

/-- C5: if an acquire attempt finds the counter contended and the
holder heartbeat's third field parses to a timestamp `t` that is at
least `HEARTBEAT_TIMEOUT_SECS` older than the local clock, the very
next two loop iterations (no sleep in between) clear the heartbeat
and lock counters and acquire the lock: the result is `acquired` with
counter exactly 1 (sole holder) at the SAME elapsed time (the sleep
and the timeout check are skipped — this holds for every timeout
setting and every already-elapsed duration). -/
theorem c5_stale_lock_reclaimed_in_one_retry
    (srv : LockSrv) (h f : Str) (t : Int) (myBeat : Str)
    (timeoutSecs : Nat) (now0 : Int) (fuel e : Nat)
    (hc : srv.counter ≠ 0)
    (hh : srv.heartbeat = some h)
    (hne : ¬(h = [] ∨ h = "0".toList))
    (hf : (pySplitAtMost h '\t' 3).get? 2 = some f)
    (hp : pyParseInt f = some t)
    (hpast : t ≤ now0 + ((e / 1000 : Nat) : Int))
    (hstale : heartbeatTimeoutSecs ≤ now0 + ((e / 1000 : Nat) : Int) - t) :
    acquireLoop myBeat timeoutSecs now0 (fuel + 2) srv e =
      AcqOutcome.acquired { counter := 1, heartbeat := some myBeat } e := by
  have hAlive : checkHolderAlive (now0 + ((e / 1000 : Nat) : Int)) h = .ok false := by
    unfold checkHolderAlive
    rw [hf]
    dsimp only
    rw [hp]
    dsimp only
    have h1 : decide (now0 + ((e / 1000 : Nat) : Int) < t) = false := by
      simp only [decide_eq_false_iff_not]; omega
    have h2 : decide (now0 + ((e / 1000 : Nat) : Int) - t < heartbeatTimeoutSecs) = false := by
      simp only [decide_eq_false_iff_not]; omega
    rw [h1, h2]
    rfl
  rw [show fuel + 2 = (fuel + 1) + 1 from rfl]
  unfold acquireLoop
  rw [if_neg hc, getHeartbeatBump srv h hh hne]
  dsimp only
  rw [hAlive]
  dsimp only
  unfold acquireLoop
  simp

/-- C5 witness: a stale holder (timestamp 10, local clock 100,
difference 90 ≥ 60) on a contended counter is reclaimed immediately,
even though 20 seconds have already elapsed against a 10-second
timeout (the timeout check is skipped on the reclamation path). -/
theorem c5_stale_lock_reclaimed_in_one_retry_witness :
    acquireLoop "me".toList 10 80 2
        { counter := 1, heartbeat := some "host\t42\t10\tcmd".toList } 20000 =
      AcqOutcome.acquired { counter := 1, heartbeat := some "me".toList } 20000 :=
  c5_stale_lock_reclaimed_in_one_retry
    { counter := 1, heartbeat := some "host\t42\t10\tcmd".toList }
    "host\t42\t10\tcmd".toList "10".toList 10 "me".toList 10 80 0 20000
    (by decide) rfl (by decide) (by decide) (by decide) (by decide) (by decide)

/-- Shared helper for C10: while the holder reads as alive at every
poll, the acquire loop (at the shipped 10-second timeout) never
steals the lock — it sleeps, retries, and finally times out naming
the holder, with the heartbeat record untouched. -/
lemma acquireLoopAliveTimeout (myBeat h : Str) (now0 : Int)
    (hne : ¬(h = [] ∨ h = "0".toList))
    (haliv : ∀ e2 : Nat, e2 < 10100 →
      checkHolderAlive (now0 + ((e2 / 1000 : Nat) : Int)) h = .ok true) :
    ∀ (fuel : Nat) (srv : LockSrv) (e : Nat), srv.counter ≠ 0 →
      srv.heartbeat = some h → e < 10100 → 10100 ≤ e + 100 * fuel →
      ∃ srvF, acquireLoop myBeat lockTimeoutSecs now0 fuel srv e =
          AcqOutcome.timedOut (some h) srvF ∧ srvF.heartbeat = some h := by
  intro fuel
  induction fuel with
  | zero => intro srv e _ _ he hf; omega
  | succ n ih =>
    intro srv e hc hh he hf
    unfold acquireLoop
    rw [if_neg hc, getHeartbeatBump srv h hh hne]
    dsimp only
    rw [haliv e he]
    dsimp only
    rw [if_pos rfl]
    by_cases hT : lockTimeoutSecs * 1000 ≤ e
    · rw [if_pos (And.intro (by decide) hT)]
      exact ⟨{ srv with counter := srv.counter + 1 }, rfl, hh⟩
    · rw [if_neg (fun hand => hT hand.2)]
      have he2 : e + 100 < 10100 := by
        have h10 : ¬ ((10 : Nat) * 1000 ≤ e) := hT
        omega
      exact ih { srv with counter := srv.counter + 1 } (e + 100)
        (by simp) hh he2 (by omega)

/-- C10: (i) a heartbeat whose third tab-separated field does not
parse as an integer makes `check_holder_alive` report the holder
alive; (ii) so does a timestamp lying in the future of the local
clock; (iii) consequently, at the shipped 10-second acquisition
timeout, a contending acquirer facing such a heartbeat never steals
the lock: it keeps retrying until the timeout elapses and then fails,
naming the holder, with the heartbeat record unchanged. -/
theorem c10_malformed_or_future_heartbeat_never_stolen :
    (∀ (now : Int) (holder f : Str),
       (pySplitAtMost holder '\t' 3).get? 2 = some f →
       pyParseInt f = none →
       checkHolderAlive now holder = .ok true) ∧
    (∀ (now : Int) (holder f : Str) (t : Int),
       (pySplitAtMost holder '\t' 3).get? 2 = some f →
       pyParseInt f = some t → now < t →
       checkHolderAlive now holder = .ok true) ∧
    (∀ (srv : LockSrv) (h f myBeat : Str) (now0 : Int) (fuel : Nat),
       srv.counter ≠ 0 → srv.heartbeat = some h →
       ¬(h = [] ∨ h = "0".toList) →
       (pySplitAtMost h '\t' 3).get? 2 = some f →
       (pyParseInt f = none ∨ ∃ t, pyParseInt f = some t ∧ now0 < t) →
       102 ≤ fuel →
       ∃ srvF, acquireLoop myBeat lockTimeoutSecs now0 fuel srv 0 =
           AcqOutcome.timedOut (some h) srvF ∧ srvF.heartbeat = some h) := by
  have part1 : ∀ (now : Int) (holder f : Str),
      (pySplitAtMost holder '\t' 3).get? 2 = some f →
      pyParseInt f = none →
      checkHolderAlive now holder = .ok true := by
    intro now holder f hf hp
    unfold checkHolderAlive
    rw [hf]
    dsimp only
    rw [hp]
  have part2 : ∀ (now : Int) (holder f : Str) (t : Int),
      (pySplitAtMost holder '\t' 3).get? 2 = some f →
      pyParseInt f = some t → now < t →
      checkHolderAlive now holder = .ok true := by
    intro now holder f t hf hp hfut
    unfold checkHolderAlive
    rw [hf]
    dsimp only
    rw [hp]
    dsimp only
    rw [decide_eq_true hfut]
    rfl
  refine ⟨part1, part2, ?_⟩
  intro srv h f myBeat now0 fuel hc hh hne hf hcase hfuel
  have haliv : ∀ e2 : Nat, e2 < 10100 →
      checkHolderAlive (now0 + ((e2 / 1000 : Nat) : Int)) h = .ok true := by
    intro e2 he2
    rcases hcase with hnone | ⟨t, hp, hfut⟩
    · exact part1 _ h f hf hnone
    · unfold checkHolderAlive
      rw [hf]
      dsimp only
      rw [hp]
      dsimp only
      have hdivle : e2 / 1000 ≤ 10 := by omega
      have hlt : now0 + ((e2 / 1000 : Nat) : Int) - t < heartbeatTimeoutSecs := by
        unfold heartbeatTimeoutSecs
        omega
      rw [decide_eq_true hlt]
      simp
  obtain ⟨fuelRest, hrest⟩ : ∃ k, fuel = 102 + k :=
    ⟨fuel - 102, by omega⟩
  subst hrest
  exact acquireLoopAliveTimeout myBeat h now0 hne haliv (102 + fuelRest) srv 0 hc hh
    (by omega) (by omega)

/-- C10 witness: a heartbeat with non-numeric third field on a
contended counter leads, after 102 loop iterations, to a timeout
naming that holder, never a steal. -/
theorem c10_malformed_or_future_heartbeat_never_stolen_witness :
    ∃ srvF, acquireLoop "me".toList lockTimeoutSecs 100 102
        { counter := 1, heartbeat := some "host\t42\tzz\tcmd".toList } 0 =
        AcqOutcome.timedOut (some "host\t42\tzz\tcmd".toList) srvF ∧
        srvF.heartbeat = some "host\t42\tzz\tcmd".toList :=
  c10_malformed_or_future_heartbeat_never_stolen.2.2
    { counter := 1, heartbeat := some "host\t42\tzz\tcmd".toList }
    "host\t42\tzz\tcmd".toList "zz".toList "me".toList 100 102
    (by decide) rfl (by decide) (by decide) (Or.inl (by decide)) (by decide)

/-! ## p4gf_p4file.py and p4gf_fastimport.py -/

/-- Python `s.split(sep)` without maxsplit: split on every
occurrence. -/
def pySplit (s : Str) (sep : Char) : List Str :=
  pySplitAtMost s sep s.length

/-- `p4gf_p4file.update_type_string`: convert old-style Perforce
filetype names to new-style. -/
def updateTypeString (oldType : Str) : Str :=
  if oldType = "ctempobj".toList then "binary+Sw".toList
  else if oldType = "ctext".toList then "text+C".toList
  else if oldType = "cxtext".toList then "text+Cx".toList
  else if oldType = "ktext".toList then "text+k".toList
  else if oldType = "kxtext".toList then "text+kx".toList
  else if oldType = "ltext".toList then "text+F".toList
  else if oldType = "tempobj".toList then "binary+FSw".toList
  else if oldType = "ubinary".toList then "binary+F".toList
  else if oldType = "uresource".toList then "resource+F".toList
  else if oldType = "uxbinary".toList then "binary+Fx".toList
  else if oldType = "xbinary".toList then "binary+x".toList
  else if oldType = "xltext".toList then "text+Fx".toList
  else if oldType = "xtempobj".toList then "binary+Swx".toList
  else if oldType = "xtext".toList then "text+x".toList
  else if oldType = "xunicode".toList then "unicode+x".toList
  else if oldType = "xutf16".toList then "utf16+x".toList
  else oldType

/-- `p4gf_p4file.has_type_modifier`: check a Perforce filetype for a
+modifier; only the segment right after the first '+' is searched. -/
def hasTypeModifier (typestring modifier : Str) : Bool :=
  match (pySplit (updateTypeString typestring) '+').get? 1 with
  | none => false
  | some part1 => strContains part1 modifier

/-- `P4File`, restricted to the fields `FastImport.__add_files`
reads. -/
structure P4File where
  clientPath : Str
  action : Str
  sha1 : Str
  type : Str
  deriving DecidableEq

/-- `P4File.is_delete`. -/
def P4File.isDelete (f : P4File) : Bool :=
  f.action = "delete".toList ∨ f.action = "move/delete".toList

/-- `P4File.is_x_type`. -/
def P4File.isXType (f : P4File) : Bool :=
  hasTypeModifier f.type "x".toList

/-- `P4File.is_symlink`. -/
def P4File.isSymlink (f : P4File) : Bool :=
  "symlink".toList.isPrefixOf f.type

/-- `FastImport.__relative_path`: the client path with the project
root prefix removed (the source asserts the path is longer than the
root). -/
def relativePath (rootLen : Nat) (f : P4File) : Str :=
  f.clientPath.drop rootLen

/-- `FastImport.__add_files`: the file-change lines appended to the
fast-import script for one changelist snapshot, one `__append` call
per emitted line.  A non-deleted revision with an empty sha1 (missing
revision) is skipped with only a log message. -/
def addFiles (rootLen : Nat) : List P4File → List Str
  | [] => []
  | f :: rest =>
    let path := relativePath rootLen f
    if f.isDelete then
      ("D ".toList ++ path ++ "\n".toList) :: addFiles rootLen rest
    else if f.sha1 = [] then
      addFiles rootLen rest
    else
      let mode : Str :=
        if f.isXType then "100755".toList
        else if f.isSymlink then "120000".toList
        else "100644".toList
      ("M ".toList ++ mode ++ " ".toList ++ f.sha1 ++ " ".toList ++ path
         ++ "\n".toList) :: addFiles rootLen rest

/-- The per-FileRevision file-change line of the amended C6 claim:
delete lines for deletes, modify lines (with mode 100755 for
executable types, else 120000 for symlinks, else 100644, referencing
the already-computed hash) for revisions with a non-empty hash, and
no line at all for a non-delete revision whose hash is missing. -/
def c6LineFor (rootLen : Nat) (f : P4File) : Option Str :=
  if f.isDelete then
    some ("D ".toList ++ relativePath rootLen f ++ "\n".toList)
  else if f.sha1 = [] then none
  else
    some ("M ".toList
      ++ (if f.isXType then "100755".toList
          else if f.isSymlink then "120000".toList
          else "100644".toList)
      ++ " ".toList ++ f.sha1 ++ " ".toList ++ relativePath rootLen f
      ++ "\n".toList)

/-- A non-deleted FileRevision whose content hash was never
materialized (sha1 `""`). -/
def c6SkipFile : P4File :=
  { clientPath := "/root/a.txt".toList
  , action := "add".toList
  , sha1 := []
  , type := "text".toList }

/-- C6 counterexample: a changelist whose single FileRevision is a
non-delete with an empty content hash produces NO file-change line,
so the emitted record does not contain exactly one line per
FileRevision as claimed — the revision is silently skipped. -/
theorem c6_missing_sha1_skipped :
    ¬ ((addFiles 5 [c6SkipFile]).length = [c6SkipFile].length) := by
  decide

/-- C6 (amended): `__add_files` emits exactly the file-change lines
described by `c6LineFor`: one `D <path>` line per delete, one
`M <mode> <sha1> <path>` line per revision with a non-empty computed
hash (mode 100755 for executable types — checked first — else 120000
for symlinks, else 100644, referencing the stored hash), and no line
for a non-delete revision with an empty hash. -/
theorem c6_one_line_per_revision_except_missing_sha1
    (rootLen : Nat) (snapshot : List P4File) :
    addFiles rootLen snapshot = snapshot.filterMap (c6LineFor rootLen) := by
  induction snapshot with
  | nil => rfl
  | cons f rest ih =>
    rw [List.filterMap_cons]
    by_cases hd : f.isDelete
    · have hline : c6LineFor rootLen f
          = some ("D ".toList ++ relativePath rootLen f ++ "\n".toList) := by
        unfold c6LineFor
        rw [if_pos hd]
      rw [hline]
      unfold addFiles
      rw [if_pos hd, ih]
    · by_cases hs : f.sha1 = []
      · have hline : c6LineFor rootLen f = none := by
          unfold c6LineFor
          rw [if_neg hd, if_pos hs]
        rw [hline]
        unfold addFiles
        rw [if_neg hd, if_pos hs, ih]
      · have hline : c6LineFor rootLen f
            = some ("M ".toList
                ++ (if f.isXType then "100755".toList
                    else if f.isSymlink then "120000".toList
                    else "100644".toList)
                ++ " ".toList ++ f.sha1 ++ " ".toList ++ relativePath rootLen f
                ++ "\n".toList) := by
          unfold c6LineFor
          rw [if_neg hd, if_neg hs]
        rw [hline]
        unfold addFiles
        rw [if_neg hd, if_neg hs, ih]

/-! ## p4gf_copy_to_git.py : RevRange -/

/-- `RevRange`: which Perforce changelists to copy to git. -/
structure RevRange where
  beginRevSpec : Str
  endRevSpec : Str
  newRepo : Bool
  graftChangeNum : Option Nat
  lastCommit : Option Str
  deriving DecidableEq

/-- The `InvalidStartPoint` error message raised by
`RevRange._existing_repo_after_commit`. -/
def invalidStartAtMsg (startAt : Str) : Str :=
  "Invalid startAt=".toList ++ startAt
    ++ ": no commit sha1 with a corresponding Perforce changelist number.".toList

/-- `RevRange._existing_repo_after_commit`, parameterized by the sha1
expansion (`p4gf_util` + git) and the Object Mirror commit-to-
changelist lookup (`GitMirror.get_change_for_commit` for the current
view).  A missing mapping — and, by Python falsiness, a mapping to
changelist 0 — raises the invalid-start-point RuntimeError; otherwise
the range begins one changelist after the mapped one, with the
new-repo flag false and no graft changelist. -/
def existingRepoAfterCommit (expandSha1 : Str → Str)
    (lookup : Str → Option Nat) (startAt stopAt : Str) :
    Except PyExc RevRange :=
  let lastCommit := expandSha1 startAt
  match lookup lastCommit with
  | none => .error (.runtimeError (invalidStartAtMsg startAt))
  | some n =>
    if n = 0 then .error (.runtimeError (invalidStartAtMsg startAt))
    else
      .ok { beginRevSpec := "@".toList ++ natToStr (1 + n)
          , endRevSpec := stopAt
          , newRepo := false
          , graftChangeNum := none
          , lastCommit := some lastCommit }

/-- C8: when the importer's range starts from a commit hash, the
resulting range begins at the changelist one greater than the one the
Object Mirror maps that commit to, with new-repo false and no graft
changelist; and when no mapping exists, range computation fails with
the InvalidStartPoint error. -/
theorem c8_range_after_commit
    (expandSha1 : Str → Str) (lookup : Str → Option Nat)
    (startAt stopAt : Str) :
    (∀ n : Nat, lookup (expandSha1 startAt) = some n → 0 < n →
      existingRepoAfterCommit expandSha1 lookup startAt stopAt =
        .ok { beginRevSpec := "@".toList ++ natToStr (1 + n)
            , endRevSpec := stopAt
            , newRepo := false
            , graftChangeNum := none
            , lastCommit := some (expandSha1 startAt) }) ∧
    (lookup (expandSha1 startAt) = none →
      existingRepoAfterCommit expandSha1 lookup startAt stopAt =
        .error (.runtimeError (invalidStartAtMsg startAt))) := by
  constructor
  · intro n hlk hpos
    unfold existingRepoAfterCommit
    dsimp only
    rw [hlk]
    dsimp only
    rw [if_neg (by omega)]
  · intro hlk
    unfold existingRepoAfterCommit
    dsimp only
    rw [hlk]

/-- C8 witness: a lookup mapping commit sha1 "abc" to changelist 7
yields a range beginning at "@8"; a sha1 with no mapping fails with
the InvalidStartPoint error. -/
theorem c8_range_after_commit_witness :
    (existingRepoAfterCommit (fun s => s)
        (fun s => if s = "abc".toList then some 7 else none)
        "abc".toList "#head".toList =
      .ok { beginRevSpec := "@8".toList
          , endRevSpec := "#head".toList
          , newRepo := false
          , graftChangeNum := none
          , lastCommit := some "abc".toList }) ∧
    (existingRepoAfterCommit (fun s => s)
        (fun s => if s = "abc".toList then some 7 else none)
        "zzz".toList "#head".toList =
      .error (.runtimeError (invalidStartAtMsg "zzz".toList))) := by
  constructor
  · have h := (c8_range_after_commit (fun s => s)
      (fun s => if s = "abc".toList then some 7 else none)
      "abc".toList "#head".toList).1 7 (by decide) (by decide)
    rw [h]
    decide
  · exact (c8_range_after_commit (fun s => s)
      (fun s => if s = "abc".toList then some 7 else none)
      "zzz".toList "#head".toList).2 (by decide)

/-! ## p4gf_gitmirror.py -/

/-- Lookup in an association list keyed by strings (modelling a
Python dict together with its insertion order). -/
def assocFind {α : Type} : List (Str × α) → Str → Option α
  | [], _ => none
  | (k2, v) :: rest, k => if k2 = k then some v else assocFind rest k

/-- Increment the count stored under a key (`self.counts[t] += 1`;
only ever called with one of the seeded kinds). -/
def assocIncr (l : List (Str × Nat)) (k : Str) : List (Str × Nat) :=
  l.map (fun kv => if kv.1 = k then (kv.1, kv.2 + 1) else kv)

/-- Python `sep.join(parts)` for a single-character separator. -/
def joinChar (c : Char) : List Str → Str
  | [] => []
  | [s] => s
  | s :: s2 :: rest => s ++ c :: joinChar c (s2 :: rest)

/-- `GitObject`: a commit/tree/tag object to mirror, with its
(changelist, view) attributions (commits only). -/
structure GitObject where
  type : Str
  sha1 : Str
  p4changelists : List (Nat × Str)
  deriving DecidableEq

/-- `GitObjectList`: the dict of objects keyed by type+sha1 plus the
per-kind counts. -/
structure GitObjectList where
  objects : List (Str × GitObject)
  counts : List (Str × Nat)
  deriving DecidableEq

/-- `GitObjectList.add_object`: skip duplicate (type, sha1) pairs. -/
def addObject (l : GitObjectList) (obj : GitObject) : GitObjectList :=
  let key := obj.type ++ obj.sha1
  if (assocFind l.objects key).isSome then l
  else { objects := l.objects ++ [(key, obj)]
       , counts := assocIncr l.counts obj.type }

/-- `p4gf_gitmirror.mirror_path`:
`root + objects/ + sha1[:2] + / + sha1[2:4] + / + sha1[4:] - type`. -/
def mirrorPath (root sha1 objtype : Str) : Str :=
  root ++ "objects/".toList ++ sha1.take 2 ++ "/".toList
    ++ (sha1.drop 2).take 2 ++ "/".toList ++ sha1.drop 4
    ++ "-".toList ++ objtype

/-- `GitObject.git_p4_client_path`: the mirror path, with commit
objects additionally suffixed `-<changelist>-<view>` (exactly one
attribution required, otherwise RuntimeError). -/
def gitP4ClientPath (gitlocalroot : Str) (go : GitObject) :
    Except PyExc Str :=
  let path := mirrorPath gitlocalroot go.sha1 go.type
  if go.type = "commit".toList then
    match go.p4changelists with
    | [cl] => .ok (path ++ "-".toList ++ natToStr cl.1 ++ "-".toList ++ cl.2)
    | _ => .error (.runtimeError
        "Bug: commit objects can only produce single path".toList)
  else .ok path

/-- `GitMirror.__add_object_to_p4` with the workspace filesystem
modelled as the set of existing paths: an already-existing file at
the computed path is reused as-is (`os.path.exists(dst)` short
circuit, no extraction, no write); otherwise the object bytes are
extracted, recompressed and written (recorded by the `true` flag and
the extended filesystem).  Returns the client path for `p4 add`. -/
def addObjectToP4 (gitlocalroot : Str) (fs : List Str) (go : GitObject) :
    Except PyExc (Str × List Str × Bool) :=
  match gitP4ClientPath gitlocalroot go with
  | .error e => .error e
  | .ok dst =>
    if dst ∈ fs then .ok (dst, fs, false)
    else .ok (dst, dst :: fs, true)

/-- `FilterAddFstatHandler` over the fstat results for a batch of
paths: depot-existing paths with the view not yet in their 'views'
attribute are collected as (path, updated views) in `existing`
(`outputStat`); depot-missing paths (message `MsgDm_ExFILE`) are
collected in `files`, the list that will be passed to `p4 add`
(`outputMessage`).  `depot` maps existing depot paths to their
'views' attribute value (missing attribute = ""). -/
def fstatFilter (depot : List (Str × Str)) (viewName : Str) :
    List Str → List Str × List (Str × Str)
  | [] => ([], [])
  | p :: rest =>
    let r := fstatFilter depot viewName rest
    match assocFind depot p with
    | some views =>
      let parts := pySplit views '#'
      if viewName ∈ parts then r
      else (r.1, (p, joinChar '#' (parts ++ [viewName])) :: r.2)
    | none => (p :: r.1, r.2)

/-- Every path routed to the add list by the fstat filter is absent
from the depot. -/
lemma fstatFilterAddAbsent (depot : List (Str × Str)) (viewName : Str) :
    ∀ (paths : List Str) (x : Str),
      x ∈ (fstatFilter depot viewName paths).1 →
      assocFind depot x = none := by
  intro paths
  induction paths with
  | nil => intro x hx; cases hx
  | cons p rest ih =>
    intro x hx
    unfold fstatFilter at hx
    rcases hd : assocFind depot p with _ | views
    · rw [hd] at hx
      dsimp only at hx
      rcases List.mem_cons.mp hx with hx1 | hx2
      · rw [hx1, hd]
      · exact ih x hx2
    · rw [hd] at hx
      dsimp only at hx
      by_cases hv : viewName ∈ pySplit views '#'
      · rw [if_pos hv] at hx
        exact ih x hx
      · rw [if_neg hv] at hx
        exact ih x hx

/-- C7: mirroring the same tree object twice in one synchronization
writes its content at most once. (i) `add_object` skips a
(type, sha1) key already collected; (ii) `__add_object_to_p4` reuses
a file already existing at the computed workspace path without
recreating it; (iii) a path whose depot file already exists is never
placed on the `p4 add` list — it is routed (when the view is new for
it) to the `existing` list, whose sole processing is the 'views'
project-attribution update of `edit_objects_with_views`. -/
theorem c7_mirror_dedup :
    (∀ (l : GitObjectList) (obj : GitObject),
       (assocFind l.objects (obj.type ++ obj.sha1)).isSome = true →
       addObject l obj = l) ∧
    (∀ (root : Str) (fs : List Str) (go : GitObject) (dst : Str),
       gitP4ClientPath root go = .ok dst → dst ∈ fs →
       addObjectToP4 root fs go = .ok (dst, fs, false)) ∧
    (∀ (depot : List (Str × Str)) (viewName : Str) (paths : List Str)
       (p views : Str),
       assocFind depot p = some views →
       p ∉ (fstatFilter depot viewName paths).1 ∧
       (p ∈ paths → viewName ∉ pySplit views '#' →
         (p, joinChar '#' (pySplit views '#' ++ [viewName]))
           ∈ (fstatFilter depot viewName paths).2)) := by
  refine ⟨?_, ?_, ?_⟩
  · intro l obj hkey
    unfold addObject
    rw [if_pos hkey]
  · intro root fs go dst hpath hmem
    unfold addObjectToP4
    rw [hpath]
    dsimp only
    rw [if_pos hmem]
  · intro depot viewName paths p views hdep
    constructor
    · intro hmem
      rw [fstatFilterAddAbsent depot viewName paths p hmem] at hdep
      cases hdep
    · intro hin hnv
      induction paths with
      | nil => cases hin
      | cons q rest ih =>
        unfold fstatFilter
        rcases List.mem_cons.mp hin with hq | hrest
        · rw [← hq, hdep]
          dsimp only
          rw [if_neg hnv]
          exact List.mem_cons_self _ _
        · rcases hd : assocFind depot q with _ | vw
          · dsimp only
            exact ih hrest
          · dsimp only
            by_cases hv : viewName ∈ pySplit vw '#'
            · rw [if_pos hv]
              exact ih hrest
            · rw [if_neg hv]
              exact List.mem_cons_of_mem _ (ih hrest)

/-- A tree object used by the C7 witness. -/
def c7Tree : GitObject :=
  { type := "tree".toList, sha1 := "abcdef".toList, p4changelists := [] }

/-- A GitObjectList already holding the C7 tree. -/
def c7List : GitObjectList :=
  { objects := [("treeabcdef".toList, c7Tree)]
  , counts := [("commit".toList, 0), ("tree".toList, 1), ("tag".toList, 0)] }

/-- The workspace path computed for the C7 tree under root `//gf/`. -/
def c7Dst : Str := mirrorPath "//gf/".toList "abcdef".toList "tree".toList

/-- C7 witness: adding the same tree a second time leaves the object
list unchanged; a second workspace materialization reuses the
existing file without writing; a depot-existing object path is kept
off the add list and routed to the views-attribute update with the
view appended. -/
theorem c7_mirror_dedup_witness :
    (addObject c7List c7Tree = c7List) ∧
    (addObjectToP4 "//gf/".toList [c7Dst] c7Tree =
      .ok (c7Dst, [c7Dst], false)) ∧
    ("p".toList ∉
        (fstatFilter [("p".toList, "v1".toList)] "v2".toList ["p".toList]).1 ∧
      ("p".toList ∈ ["p".toList] → "v2".toList ∉ pySplit "v1".toList '#' →
        ("p".toList, joinChar '#' (pySplit "v1".toList '#' ++ ["v2".toList]))
          ∈ (fstatFilter [("p".toList, "v1".toList)] "v2".toList ["p".toList]).2)) :=
  ⟨c7_mirror_dedup.1 c7List c7Tree (by decide)
  , c7_mirror_dedup.2.1 "//gf/".toList [c7Dst] c7Tree c7Dst (by decide)
      (List.mem_singleton.mpr rfl)
  , c7_mirror_dedup.2.2 [("p".toList, "v1".toList)] "v2".toList ["p".toList]
      "p".toList "v1".toList (by decide)⟩

/-! ## p4gf_copy_to_p4.py -/

/-- Python `s.strip(chars)`: remove any of the given characters from
both ends. -/
def pyStripChars (s : Str) (chars : List Char) : Str :=
  ((s.dropWhile (fun c => decide (c ∈ chars))).reverse.dropWhile
    (fun c => decide (c ∈ chars))).reverse

/-- `p4gf_const.P4GF_IMPORT_HEADER`. -/
def importHeader : Str := "Imported from Git".toList

/-- An author/committer line from the fast-export stream
(`p4gf_fastexport.Parser.get_commit`): name, bracketed email, epoch
seconds, timezone. -/
structure PersonLine where
  user : Str
  email : Str
  date : Str
  timezone : Str
  deriving DecidableEq

/-- One file-change entry of a fast-export commit. -/
structure GfBlob where
  action : Str
  path : Str
  deriving DecidableEq

/-- A commit record from the fast-export stream, restricted to the
fields `copy_commit` and `change_description` read.  `merge` records
whether the commit carried a `merge` line (two or more parents). -/
structure GfCommit where
  sha1 : Str
  data : Str
  author : PersonLine
  committer : PersonLine
  merge : Bool
  files : List GfBlob
  deriving DecidableEq

/-- `change_description(commit, pusher, author)`: the commit message,
then the import header, ` Author: ...` and ` Committer: ...` audit
lines, a ` Pusher: ...` line when pusher and author differ, and the
` sha1: ...` line, joined with newlines. -/
def changeDescription (commit : GfCommit) (pusher author : Str) : Str :=
  joinChar '\n'
    ([ commit.data
     , importHeader
     , " Author: ".toList ++ commit.author.user ++ " ".toList
         ++ commit.author.email ++ " ".toList ++ commit.author.date
         ++ " ".toList ++ commit.author.timezone
     , " Committer: ".toList ++ commit.committer.user ++ " ".toList
         ++ commit.committer.email ++ " ".toList ++ commit.committer.date
         ++ " ".toList ++ commit.committer.timezone ]
     ++ (if pusher ≠ author then [" Pusher: ".toList ++ pusher] else [])
     ++ [" sha1: ".toList ++ commit.sha1])

/-- One Perforce / filesystem operation issued while copying a
commit, as visible to the central server or the local tree. -/
inductive P4Op
  | connect
  | openedQuery
  | revert
  | unlink (path : Str)
  | addCmd (op : Str) (paths : List Str)
  | editCmd (op : Str) (paths : List Str)
  | deleteCmd (paths : List Str)
  | moveCmd (frompath topath : Str)
  | submitCmd
  deriving DecidableEq

/-- Which operations open, add, delete, move or submit files in the
central server on behalf of a commit (the write class of claim C2;
`revert` closes files and `opened` only reads). -/
def P4Op.isServerWrite : P4Op → Bool
  | .addCmd _ _ => true
  | .editCmd _ _ => true
  | .deleteCmd _ => true
  | .moveCmd _ _ => true
  | .submitCmd => true
  | _ => false

/-- `G2P.remove_added_files`: delete from the local tree every file
listed under a pending operation whose first word is `add`. -/
def removeAddedFiles : List (Str × List Str) → List P4Op
  | [] => []
  | (op, paths) :: rest =>
    match pySplit op ' ' with
    | c0 :: _ =>
      if c0 = "add".toList then
        paths.map P4Op.unlink ++ removeAddedFiles rest
      else removeAddedFiles rest
    | [] => removeAddedFiles rest

/-- `G2P.revert_and_raise(errmsg)`: open a fresh connection, query
opened files, revert the whole client when any file is opened, delete
freshly added local files, and raise
`RuntimeError("import failed: " + errmsg)`.  `openedFiles` is the
result of the `p4 opened` query; `aed` is `self.addeditdelete` at
this point. -/
def revertAndRaise (openedFiles : List Str) (aed : List (Str × List Str))
    (errmsg : Str) : List P4Op × PyExc :=
  let ops :=
    [P4Op.connect, P4Op.openedQuery]
      ++ (if openedFiles ≠ [] then [P4Op.revert] else [])
      ++ removeAddedFiles aed
  (ops, .runtimeError ("import failed: ".toList ++ errmsg))

/-- The merge-rejection message of `copy_commit`
(`MergeCommitRejected` in the specification's taxonomy). -/
def mergeRejectMsg (sha1 : Str) : Str :=
  "Merge commit ".toList ++ sha1
    ++ " not permitted. Rebase to create a linear history.".toList

/-- The unknown-author message of `copy_commit` (`UnknownAuthor`). -/
def unknownAuthorMsg (email : Str) : Str :=
  "User '".toList ++ email ++ "' not permitted to commit".toList

/-- Exception escaping `copy_blobs`: either a caught
`P4.P4Exception` or some other exception (OSError and friends). -/
inductive ReplayExc
  | p4Error (msg : Str)
  | otherError (msg : Str)
  deriving DecidableEq

/-- The parts of `copy_commit`'s run that depend on the Perforce
server, the git work tree and the usermap, supplied as an
environment: identity resolution, the protections verdict, the
outcome of the two-pass file replay (`copy_blobs`), and the submit
outcome. -/
structure G2PEnv where
  pusher : Str
  userForEmail : Str → Option Str
  protectsErr : Option Str
  replayOps : List P4Op
  replayAed : List (Str × List Str)
  replayExc : Option ReplayExc
  openedPre : List Str
  openedAfterReplay : List Str
  submitExc : Option Str
  submitChange : Nat

/-- `G2P.copy_commit(commit)`: clear per-commit state; reject merge
commits; resolve the author against the user map; validate file
names; (checkout is git-local); run the protections filter; replay
the file changes (`copy_blobs`, whose issued commands, accumulated
`addeditdelete` dict and possible exception come from the
environment — only a `P4.P4Exception` is caught and routed through
`revert_and_raise`); finally query opened files and either skip an
empty changelist or submit, returning the `:change sha1` mark.
Output: the operations issued and the result (mark, empty-commit
`none`, or exception). -/
def copyCommit (env : G2PEnv) (commit : GfCommit) :
    List P4Op × Except PyExc (Option Str) :=
  if commit.merge then
    let r := revertAndRaise env.openedPre [] (mergeRejectMsg commit.sha1)
    (r.1, .error r.2)
  else
    let email := pyStripChars commit.author.email ['<', '>']
    match env.userForEmail email with
    | none =>
      let r := revertAndRaise env.openedPre [] (unknownAuthorMsg email)
      (r.1, .error r.2)
    | some _authorP4user =>
      if commit.files.any (fun b => strContains b.path "...".toList) then
        let r := revertAndRaise env.openedPre []
          ("bad filename".toList)
        (r.1, .error r.2)
      else
        match env.protectsErr with
        | some msg =>
          let r := revertAndRaise env.openedPre [] msg
          (r.1, .error r.2)
        | none =>
          match env.replayExc with
          | some (.p4Error m) =>
            let r := revertAndRaise env.openedPre env.replayAed m
            (env.replayOps ++ r.1, .error r.2)
          | some (.otherError m) =>
            (env.replayOps, .error (.osError m))
          | none =>
            let ops := env.replayOps ++ [P4Op.openedQuery]
            if env.openedAfterReplay = [] then (ops, .ok none)
            else
              match env.submitExc with
              | some m =>
                let r := revertAndRaise env.openedPre env.replayAed m
                (ops ++ [P4Op.submitCmd] ++ r.1, .error r.2)
              | none =>
                (ops ++ [P4Op.submitCmd]
                , .ok (some (":".toList ++ natToStr env.submitChange
                    ++ " ".toList ++ commit.sha1)))

/-- Paths listed under pending operations whose first word is `add`
(the files `remove_added_files` deletes). -/
def addedPaths : List (Str × List Str) → List Str
  | [] => []
  | (op, paths) :: rest =>
    match pySplit op ' ' with
    | c0 :: _ =>
      if c0 = "add".toList then paths ++ addedPaths rest
      else addedPaths rest
    | [] => addedPaths rest

/-- `remove_added_files` unlinks every freshly added path. -/
lemma removeAddedFilesUnlinks (aed : List (Str × List Str)) (p : Str)
    (hp : p ∈ addedPaths aed) :
    P4Op.unlink p ∈ removeAddedFiles aed := by
  induction aed with
  | nil => cases hp
  | cons kv rest ih =>
    obtain ⟨op, paths⟩ := kv
    unfold addedPaths at hp
    unfold removeAddedFiles
    rcases hsp : pySplit op ' ' with _ | ⟨c0, cs⟩
    · rw [hsp] at hp
      exact ih hp
    · rw [hsp] at hp
      dsimp only at hp ⊢
      by_cases hadd : c0 = "add".toList
      · rw [if_pos hadd] at hp ⊢
        rcases List.mem_append.mp hp with h1 | h2
        · exact List.mem_append.mpr (Or.inl (List.mem_map_of_mem _ h1))
        · exact List.mem_append.mpr (Or.inr (ih h2))
      · rw [if_neg hadd] at hp ⊢
        exact ih hp

/-- C2: for every commit record carrying a `merge` field,
`copy_commit` raises the merge-rejection RuntimeError
(`MergeCommitRejected`) wrapped by `revert_and_raise`, and the
operations issued on behalf of that commit contain no add, edit,
delete, move or submit — no server-side write (the rejection happens
before any file command; `revert_and_raise` only queries opened
files, possibly reverts leftovers, and unlinks nothing since the
per-commit batch was just reset). -/
theorem c2_merge_commit_rejected_no_writes
    (env : G2PEnv) (commit : GfCommit) (hm : commit.merge = true) :
    (copyCommit env commit).2 =
      .error (.runtimeError
        ("import failed: ".toList ++ mergeRejectMsg commit.sha1)) ∧
    (copyCommit env commit).1.filter P4Op.isServerWrite = [] := by
  unfold copyCommit
  rw [if_pos hm]
  unfold revertAndRaise removeAddedFiles
  refine ⟨rfl, ?_⟩
  by_cases ho : env.openedPre ≠ []
  · rw [if_pos ho]
    rfl
  · rw [if_neg ho]
    rfl

/-- Environment for the C2/C4 witnesses: one file already opened, one
pending add batch, a P4 error escaping the replay. -/
def c4Env : G2PEnv :=
  { pusher := "pp".toList
  , userForEmail := fun _ => some "u1".toList
  , protectsErr := none
  , replayOps := [P4Op.editCmd "edit".toList ["//c/f1".toList]]
  , replayAed := [("add -f".toList, ["/w/p1".toList])]
  , replayExc := some (.p4Error "locked".toList)
  , openedPre := ["//c/f1".toList]
  , openedAfterReplay := []
  , submitExc := none
  , submitChange := 0 }

/-- A merge commit for the C2 witness. -/
def c2MergeCommit : GfCommit :=
  { sha1 := "ab12".toList
  , data := "msg".toList
  , author := { user := "A".toList, email := "<a@x>".toList
              , date := "1".toList, timezone := "+0000".toList }
  , committer := { user := "A".toList, email := "<a@x>".toList
                 , date := "1".toList, timezone := "+0000".toList }
  , merge := true
  , files := [] }

/-- C2 witness: the merge rejection evaluated at a concrete
environment and merge commit. -/
theorem c2_merge_commit_rejected_no_writes_witness :
    (copyCommit c4Env c2MergeCommit).2 =
      .error (.runtimeError
        ("import failed: ".toList ++ mergeRejectMsg c2MergeCommit.sha1)) ∧
    (copyCommit c4Env c2MergeCommit).1.filter P4Op.isServerWrite = [] :=
  c2_merge_commit_rejected_no_writes c4Env c2MergeCommit rfl

/-- C4 (amended): when a `P4.P4Exception` escapes the file replay, or
the submit raises one, `copy_commit` routes it through
`revert_and_raise`: the raised error wraps the message, the whole
client is reverted whenever any file is opened, and every freshly
added local file is unlinked; an exception that is NOT a
`P4.P4Exception` is not caught there and propagates with no such
recovery (see the counterexample theorem). -/
theorem c4_p4_exception_recovery
    (env : G2PEnv) (commit : GfCommit) (m : Str) (u : Str)
    (hm : commit.merge = false)
    (hu : env.userForEmail (pyStripChars commit.author.email ['<', '>'])
       = some u)
    (hfn : commit.files.any (fun b => strContains b.path "...".toList) = false)
    (hpr : env.protectsErr = none) :
    (env.replayExc = some (.p4Error m) →
      (copyCommit env commit).2 =
        .error (.runtimeError ("import failed: ".toList ++ m)) ∧
      (env.openedPre ≠ [] → P4Op.revert ∈ (copyCommit env commit).1) ∧
      (∀ p, p ∈ addedPaths env.replayAed →
        P4Op.unlink p ∈ (copyCommit env commit).1)) ∧
    (env.replayExc = none → env.openedAfterReplay ≠ [] →
     env.submitExc = some m →
      (copyCommit env commit).2 =
        .error (.runtimeError ("import failed: ".toList ++ m)) ∧
      (env.openedPre ≠ [] → P4Op.revert ∈ (copyCommit env commit).1) ∧
      (∀ p, p ∈ addedPaths env.replayAed →
        P4Op.unlink p ∈ (copyCommit env commit).1)) := by
  constructor
  · intro hre
    unfold copyCommit
    rw [if_neg (by rw [hm]; exact Bool.false_ne_true)]
    dsimp only
    rw [hu]
    dsimp only
    rw [if_neg (by rw [hfn]; exact Bool.false_ne_true), hpr]
    dsimp only
    rw [hre]
    dsimp only
    unfold revertAndRaise
    refine ⟨rfl, ?_, ?_⟩
    · intro ho
      rw [if_pos ho]
      simp
    · intro p hp
      have hm2 := removeAddedFilesUnlinks env.replayAed p hp
      simp only [List.mem_append]
      tauto
  · intro hre hopen hsub
    unfold copyCommit
    rw [if_neg (by rw [hm]; exact Bool.false_ne_true)]
    dsimp only
    rw [hu]
    dsimp only
    rw [if_neg (by rw [hfn]; exact Bool.false_ne_true), hpr]
    dsimp only
    rw [hre]
    dsimp only
    rw [if_neg hopen, hsub]
    dsimp only
    unfold revertAndRaise
    refine ⟨rfl, ?_, ?_⟩
    · intro ho
      rw [if_pos ho]
      simp
    · intro p hp
      have hm2 := removeAddedFilesUnlinks env.replayAed p hp
      simp only [List.mem_append]
      tauto

/-- The C4 commit: an ordinary single-parent commit. -/
def c4Commit : GfCommit :=
  { c2MergeCommit with
    merge := false,
    files := [{ action := "M".toList, path := "f1".toList }] }

/-- C4 witness: the P4-exception recovery path evaluated at a
concrete environment — the revert is issued (a file was opened) and
the pending `add -f` path is unlinked, before the wrapped error. -/
theorem c4_p4_exception_recovery_witness :
    (copyCommit c4Env c4Commit).2 =
      .error (.runtimeError ("import failed: locked".toList)) ∧
    P4Op.revert ∈ (copyCommit c4Env c4Commit).1 ∧
    P4Op.unlink "/w/p1".toList ∈ (copyCommit c4Env c4Commit).1 := by
  have h := (c4_p4_exception_recovery c4Env c4Commit "locked".toList
    "u1".toList rfl rfl (by decide) rfl).1 rfl
  exact ⟨h.1, h.2.1 (by decide), h.2.2 "/w/p1".toList (by decide)⟩

/-- The C4 environment with a non-P4 exception (OSError "disk full")
escaping the replay instead. -/
def c4EnvOther : G2PEnv :=
  { c4Env with replayExc := some (.otherError "disk full".toList) }

/-- C4 counterexample: an exception that is not a `P4.P4Exception`
raised during replay (an OSError from a filesystem call inside
`copy_blobs`) propagates — `except P4.P4Exception` does not catch it
— so the commit's opened file is NOT reverted and the freshly added
file is NOT deleted, refuting the claim's "any exception". -/
theorem c4_non_p4_exception_skips_recovery :
    (copyCommit c4EnvOther c4Commit).2 =
      .error (.osError "disk full".toList) ∧
    P4Op.revert ∉ (copyCommit c4EnvOther c4Commit).1 ∧
    P4Op.unlink "/w/p1".toList ∉ (copyCommit c4EnvOther c4Commit).1 := by
  refine ⟨rfl, by decide, by decide⟩

/-- The mark string `:changenum sha1` returned by `copy_commit`. -/
def mkMark (change : Nat) (sha1 : Str) : Str :=
  ":".toList ++ natToStr change ++ " ".toList ++ sha1

/-- `mark_to_commit_changelist`: split `:N sha1` back into
(sha1, changelist string). -/
def markToCommitChangelist (mark : Str) : Str × Str :=
  let r := pySplit (mark.drop 1) ' '
  ((r.get? 1).getD [], (r.get? 0).getD [])

/-- One command from the fast-export stream as consumed by
`G2P.copy`: a commit (with the number of foreign changelists that
land on the server just before it is processed, and whether it turns
out empty), or a reset (ignored by the loop). -/
inductive FECmd
  | commitCmd (sha1 : Str) (emptyCommit : Bool) (foreignCount : Nat)
  | resetCmd
  deriving DecidableEq

/-- Observable outcome of one `G2P.copy` run: the (changelist, sha1)
pairs submitted, the marks handed to the Object Mirror in the
`finally` block (`add_commits` + `add_objects_to_p4`), the
exception (if any) alive after the flush, and the final conflict
checker state. -/
structure CopyResult where
  submitted : List (Nat × Str)
  mirroredMarks : List Str
  err : Option PyExc
  checker : CheckerState
  deriving DecidableEq

/-- The RuntimeError message raised by `G2P.copy` when
`has_conflict()` is set (`ConflictDetected` in the specification's
taxonomy).  It is a fixed string: no changelist number appears. -/
def conflictAbortMsg : Str :=
  ("Conflicting change from Perforce caused one"
    ++ " or more git commits to fail. Time to"
    ++ " pull, rebase, and try again.").toList

/-- The per-commit tail of the `G2P.copy` loop body, after a
successful submit: the foreign changelists land, the server assigns
the next changelist number `c` to our submit, `record_commit`
stores the pair (the mark string round-trips through
`mark_to_commit_changelist`), and `check()` runs on the
`p4 changes -m5` window at `@last_good,future`.  Returns the grown
server history, `c`, and the checker state and `check()` result. -/
def commitOutcome (srv : List Nat) (st : CheckerState) (sha1 : Str)
    (foreignCount : Nat) :
    List Nat × Nat × CheckerState × Except PyExc (Option Nat) :=
  let srv1 := srv ++ (List.range foreignCount).map (fun i => srv.length + 1 + i)
  let c := srv1.length + 1
  let srv2 := srv1 ++ [c]
  match recordCommit st sha1 c with
  | .error e => (srv2, c, st, .error e)
  | .ok st1 =>
    let lb := st1.lastGoodChangeNumber.getD 0
    let query := (srv2.filter (fun x => decide (lb ≤ x))).reverse.take 5
    let r := checkerCheck st1 query
    (srv2, c, r.1, r.2)

/-- The `G2P.copy` command loop.  An empty commit is skipped
(`mark is None → continue`); after a successful submit the checker
records and checks; a truthy `check()` result breaks out of the loop
BEFORE `marks.append(mark)`; any checker exception also aborts the
loop.  In every exit path the accumulated `marks` list is what the
`finally` block flushes to the Object Mirror; after the flush, a set
conflict flag raises the fixed ConflictDetected RuntimeError. -/
def runCopyLoop :
    List FECmd → List Nat → CheckerState → List Str → List (Nat × Str) →
    CopyResult
  | [], _, st, marks, sub =>
    { submitted := sub, mirroredMarks := marks
    , err := if hasConflict st then some (.runtimeError conflictAbortMsg)
             else none
    , checker := st }
  | .resetCmd :: rest, srv, st, marks, sub =>
    runCopyLoop rest srv st marks sub
  | .commitCmd sha1 emptyCommit foreignCount :: rest, srv, st, marks, sub =>
    if emptyCommit then
      runCopyLoop rest
        (srv ++ (List.range foreignCount).map (fun i => srv.length + 1 + i))
        st marks sub
    else
      match commitOutcome srv st sha1 foreignCount with
      | (_, c, st2, .error e) =>
        { submitted := sub ++ [(c, sha1)], mirroredMarks := marks
        , err := some e, checker := st2 }
      | (srv2, c, st2, .ok none) =>
        runCopyLoop rest srv2 st2 (marks ++ [mkMark c sha1])
          (sub ++ [(c, sha1)])
      | (_, c, st2, .ok (some _)) =>
        { submitted := sub ++ [(c, sha1)], mirroredMarks := marks
        , err := if hasConflict st2 then
                   some (.runtimeError conflictAbortMsg)
                 else none
        , checker := st2 }

/-- `G2P.copy` on a fresh server history, with the conflict checker
seeded from the mirror's knowledge of the current git head. -/
def runCopy (cmds : List FECmd) (seed : Option CommitChange) : CopyResult :=
  runCopyLoop cmds [] (checkerInit seed) [] []

/-- Unfolding equation: empty command list. -/
lemma runCopyLoopNil (srv : List Nat) (st : CheckerState) (marks : List Str)
    (sub : List (Nat × Str)) :
    runCopyLoop [] srv st marks sub =
      { submitted := sub, mirroredMarks := marks
      , err := if hasConflict st then some (.runtimeError conflictAbortMsg)
               else none
      , checker := st } := rfl

/-- Unfolding equation: reset command. -/
lemma runCopyLoopReset (rest : List FECmd) (srv : List Nat)
    (st : CheckerState) (marks : List Str) (sub : List (Nat × Str)) :
    runCopyLoop (FECmd.resetCmd :: rest) srv st marks sub =
      runCopyLoop rest srv st marks sub := rfl

/-- Unfolding equation: empty commit. -/
lemma runCopyLoopEmptyCommit (sha1 : Str) (fc : Nat) (rest : List FECmd)
    (srv : List Nat) (st : CheckerState) (marks : List Str)
    (sub : List (Nat × Str)) :
    runCopyLoop (FECmd.commitCmd sha1 true fc :: rest) srv st marks sub =
      runCopyLoop rest
        (srv ++ (List.range fc).map (fun i => srv.length + 1 + i))
        st marks sub := rfl

/-- Unfolding equation: submitted commit. -/
lemma runCopyLoopCommit (sha1 : Str) (fc : Nat) (rest : List FECmd)
    (srv : List Nat) (st : CheckerState) (marks : List Str)
    (sub : List (Nat × Str)) :
    runCopyLoop (FECmd.commitCmd sha1 false fc :: rest) srv st marks sub =
      (match commitOutcome srv st sha1 fc with
      | (_, c, st2, .error e) =>
        { submitted := sub ++ [(c, sha1)], mirroredMarks := marks
        , err := some e, checker := st2 }
      | (srv2, c, st2, .ok none) =>
        runCopyLoop rest srv2 st2 (marks ++ [mkMark c sha1])
          (sub ++ [(c, sha1)])
      | (_, c, st2, .ok (some _)) =>
        { submitted := sub ++ [(c, sha1)], mirroredMarks := marks
        , err := if hasConflict st2 then
                   some (.runtimeError conflictAbortMsg)
                 else none
        , checker := st2 }) := rfl

/-- `check()` stores the conflict index it computed. -/
lemma checkerCheckFst (st : CheckerState) (q : List Nat) :
    (checkerCheck st q).1 =
      { (findConflictIndex st q).2 with
        firstConflictIndex := (findConflictIndex st q).1 } := by
  unfold checkerCheck
  dsimp only
  rcases hfind : (findConflictIndex st q).1 with _ | i
  · rfl
  · rcases hg : ((findConflictIndex st q).2).good.get? i with _ | e
    · dsimp only
      rw [hg]
    · dsimp only
      rw [hg]

/-- A `check()` returning no conflict leaves the conflict flag
clear. -/
lemma checkerCheckOkNone (st : CheckerState) (q : List Nat)
    (h : (checkerCheck st q).2 = .ok none) :
    (checkerCheck st q).1.firstConflictIndex = none := by
  rw [checkerCheckFst]
  dsimp only
  unfold checkerCheck at h
  dsimp only at h
  rcases hfind : (findConflictIndex st q).1 with _ | i
  · rfl
  · exfalso
    rw [hfind] at h
    dsimp only at h
    rcases hg : ((findConflictIndex st q).2).good.get? i with _ | e
    · rw [hg] at h
      simp at h
    · rw [hg] at h
      simp at h

/-- A `check()` returning a changelist sets the conflict flag. -/
lemma checkerCheckOkSome (st : CheckerState) (q : List Nat) (v : Nat)
    (h : (checkerCheck st q).2 = .ok (some v)) :
    hasConflict (checkerCheck st q).1 = true := by
  unfold hasConflict
  rw [checkerCheckFst]
  dsimp only
  unfold checkerCheck at h
  dsimp only at h
  rcases hfind : (findConflictIndex st q).1 with _ | i
  · exfalso
    rw [hfind] at h
    simp at h
  · simp

/-- The only exception `check()` raises is IndexError. -/
lemma checkerCheckErrIndex (st : CheckerState) (q : List Nat) (e : PyExc)
    (h : (checkerCheck st q).2 = .error e) :
    e = .indexError := by
  unfold checkerCheck at h
  dsimp only at h
  rcases hfind : (findConflictIndex st q).1 with _ | i
  · rw [hfind] at h
    simp at h
  · rw [hfind] at h
    dsimp only at h
    rcases hg : ((findConflictIndex st q).2).good.get? i with _ | e2
    · rw [hg] at h
      simp at h
      exact h.symm
    · rw [hg] at h
      simp at h

/-- `record_commit` with a positive changelist number appends. -/
lemma recordCommitPos (st : CheckerState) (sha1 : Str) (c : Nat)
    (hc : c ≠ 0) :
    recordCommit st sha1 c =
      .ok { st with good := st.good ++ [{ sha1 := sha1, change := c }] } := by
  unfold recordCommit
  rw [if_neg (fun hand => hc hand.2)]

/-- `commitOutcome` always goes through `record_commit` successfully
(server change numbers are positive) and ends in a `check()`. -/
lemma commitOutcomeShape (srv : List Nat) (st : CheckerState) (sha1 : Str)
    (fc : Nat) :
    ∃ (st1 : CheckerState) (query : List Nat) (srv2 : List Nat) (c : Nat),
      commitOutcome srv st sha1 fc =
        (srv2, c, (checkerCheck st1 query).1, (checkerCheck st1 query).2) := by
  unfold commitOutcome
  dsimp only
  rw [recordCommitPos st sha1 _ (by simp)]
  exact ⟨_, _, _, _, rfl⟩

/-- A failing per-commit check is an IndexError. -/
lemma commitOutcomeErrIndex (srv : List Nat) (st : CheckerState) (sha1 : Str)
    (fc : Nat) (srv2 : List Nat) (c : Nat) (st2 : CheckerState) (e : PyExc)
    (hco : commitOutcome srv st sha1 fc = (srv2, c, st2, .error e)) :
    e = .indexError := by
  obtain ⟨st1, query, srv3, c2, heq⟩ := commitOutcomeShape srv st sha1 fc
  rw [heq] at hco
  have h2 : (checkerCheck st1 query).2 = .error e := by
    have := congrArg (fun p => p.2.2.2) hco
    simpa using this
  exact checkerCheckErrIndex st1 query e h2

/-- A clean per-commit check leaves the conflict flag clear. -/
lemma commitOutcomeOkNoneFci (srv : List Nat) (st : CheckerState) (sha1 : Str)
    (fc : Nat) (srv2 : List Nat) (c : Nat) (st2 : CheckerState)
    (hco : commitOutcome srv st sha1 fc = (srv2, c, st2, .ok none)) :
    st2.firstConflictIndex = none := by
  obtain ⟨st1, query, srv3, c2, heq⟩ := commitOutcomeShape srv st sha1 fc
  rw [heq] at hco
  have h1 : (checkerCheck st1 query).1 = st2 := by
    have := congrArg (fun p => p.2.2.1) hco
    simpa using this
  have h2 : (checkerCheck st1 query).2 = .ok none := by
    have := congrArg (fun p => p.2.2.2) hco
    simpa using this
  rw [← h1]
  exact checkerCheckOkNone st1 query h2

/-- A conflict-reporting per-commit check sets the conflict flag. -/
lemma commitOutcomeOkSomeHas (srv : List Nat) (st : CheckerState) (sha1 : Str)
    (fc : Nat) (srv2 : List Nat) (c : Nat) (st2 : CheckerState) (v : Nat)
    (hco : commitOutcome srv st sha1 fc = (srv2, c, st2, .ok (some v))) :
    hasConflict st2 = true := by
  obtain ⟨st1, query, srv3, c2, heq⟩ := commitOutcomeShape srv st sha1 fc
  rw [heq] at hco
  have h1 : (checkerCheck st1 query).1 = st2 := by
    have := congrArg (fun p => p.2.2.1) hco
    simpa using this
  have h2 : (checkerCheck st1 query).2 = .ok (some v) := by
    have := congrArg (fun p => p.2.2.2) hco
    simpa using this
  rw [← h1]
  exact checkerCheckOkSome st1 query v h2

/-- A clear conflict flag means `has_conflict()` is false. -/
lemma hasConflictFalse (st : CheckerState) (h : st.firstConflictIndex = none) :
    hasConflict st = false := by
  unfold hasConflict
  rw [h]
  rfl

/-- Once a run of the copy loop ends with the ConflictDetected error,
appending further fast-export commands changes nothing: the conflict
break prevents any later commit from being copied or submitted. -/
lemma runCopyLoopExt :
    ∀ (cmds : List FECmd) (srv : List Nat) (st : CheckerState)
      (marks : List Str) (sub : List (Nat × Str)) (more : List FECmd),
      st.firstConflictIndex = none →
      (runCopyLoop cmds srv st marks sub).err =
        some (.runtimeError conflictAbortMsg) →
      runCopyLoop (cmds ++ more) srv st marks sub =
        runCopyLoop cmds srv st marks sub := by
  intro cmds
  induction cmds with
  | nil =>
    intro srv st marks sub more hfci herr
    exfalso
    rw [runCopyLoopNil] at herr
    dsimp only at herr
    rw [hasConflictFalse st hfci] at herr
    simp at herr
  | cons cmd rest ih =>
    intro srv st marks sub more hfci herr
    cases cmd with
    | resetCmd =>
      rw [List.cons_append, runCopyLoopReset, runCopyLoopReset]
      rw [runCopyLoopReset] at herr
      exact ih srv st marks sub more hfci herr
    | commitCmd sha1 emptyCommit foreignCount =>
      cases emptyCommit with
      | true =>
        rw [List.cons_append, runCopyLoopEmptyCommit, runCopyLoopEmptyCommit]
        rw [runCopyLoopEmptyCommit] at herr
        exact ih _ st marks sub more hfci herr
      | false =>
        rw [List.cons_append, runCopyLoopCommit, runCopyLoopCommit]
        rw [runCopyLoopCommit] at herr
        rcases hco : commitOutcome srv st sha1 foreignCount with
          ⟨srv2, c, st2, res⟩
        rw [hco] at herr
        rcases res with e | ov
        · rfl
        · rcases ov with _ | v
          · dsimp only at herr ⊢
            exact ih srv2 st2 _ _ more
              (commitOutcomeOkNoneFci srv st sha1 foreignCount srv2 c st2 hco)
              herr
          · rfl

/-- When a run of the copy loop ends with the ConflictDetected error,
the submitted list is the mirrored commits plus exactly the one
conflict-detecting commit: that last submitted commit's mark is NOT
flushed to the Object Mirror (the break skips `marks.append`). -/
lemma runCopyLoopConflictShape :
    ∀ (cmds : List FECmd) (srv : List Nat) (st : CheckerState)
      (marks : List Str) (sub : List (Nat × Str)),
      st.firstConflictIndex = none →
      marks = sub.map (fun p => mkMark p.1 p.2) →
      (runCopyLoop cmds srv st marks sub).err =
        some (.runtimeError conflictAbortMsg) →
      ∃ pre last,
        (runCopyLoop cmds srv st marks sub).submitted = pre ++ [last] ∧
        (runCopyLoop cmds srv st marks sub).mirroredMarks =
          pre.map (fun p => mkMark p.1 p.2) := by
  intro cmds
  induction cmds with
  | nil =>
    intro srv st marks sub hfci hinv herr
    exfalso
    rw [runCopyLoopNil] at herr
    dsimp only at herr
    rw [hasConflictFalse st hfci] at herr
    simp at herr
  | cons cmd rest ih =>
    intro srv st marks sub hfci hinv herr
    cases cmd with
    | resetCmd =>
      rw [runCopyLoopReset] at herr ⊢
      exact ih srv st marks sub hfci hinv herr
    | commitCmd sha1 emptyCommit foreignCount =>
      cases emptyCommit with
      | true =>
        rw [runCopyLoopEmptyCommit] at herr ⊢
        exact ih _ st marks sub hfci hinv herr
      | false =>
        rw [runCopyLoopCommit] at herr ⊢
        rcases hco : commitOutcome srv st sha1 foreignCount with
          ⟨srv2, c, st2, res⟩
        rw [hco] at herr
        rcases res with e | ov
        · exfalso
          dsimp only at herr
          have he : e = .indexError :=
            commitOutcomeErrIndex srv st sha1 foreignCount srv2 c st2 e hco
          rw [he] at herr
          simp at herr
        · rcases ov with _ | v
          · dsimp only at herr ⊢
            exact ih srv2 st2 _ _
              (commitOutcomeOkNoneFci srv st sha1 foreignCount srv2 c st2 hco)
              (by rw [hinv, List.map_append]; rfl) herr
          · refine ⟨sub, (c, sha1), rfl, ?_⟩
            exact hinv

/-- The checker starts with the conflict flag clear. -/
lemma checkerInitFci (seed : Option CommitChange) :
    (checkerInit seed).firstConflictIndex = none := by
  cases seed <;> rfl

/-- C3 (amended): when an export run ends with the ConflictDetected
error, (i) no later commit in the stream is copied or submitted —
extending the command stream does not change the result; (ii) the
Object Mirror is flushed for exactly the commits submitted BEFORE the
conflict-detecting one: the submitted list is those mirrored commits
plus the single commit whose post-submit check detected the conflict,
whose mark is not mirrored; and (iii) the raised error is the fixed
pull/rebase/retry message, which names no changelist number (it
contains no digit at all). -/
theorem c3_conflict_halts_export (cmds : List FECmd)
    (seed : Option CommitChange)
    (hconf : (runCopy cmds seed).err =
      some (.runtimeError conflictAbortMsg)) :
    (∀ more, runCopy (cmds ++ more) seed = runCopy cmds seed) ∧
    (∃ pre last, (runCopy cmds seed).submitted = pre ++ [last] ∧
      (runCopy cmds seed).mirroredMarks =
        pre.map (fun p => mkMark p.1 p.2)) ∧
    conflictAbortMsg.any Char.isDigit = false := by
  refine ⟨?_, ?_, by decide⟩
  · intro more
    exact runCopyLoopExt cmds [] (checkerInit seed) [] [] more
      (checkerInitFci seed) hconf
  · exact runCopyLoopConflictShape cmds [] (checkerInit seed) [] []
      (checkerInitFci seed) rfl hconf

/-- The C3 scenario: three linear commits; one foreign changelist
lands between the first and the second commit's submission. -/
def c3Cmds : List FECmd :=
  [ .commitCmd "aa".toList false 0
  , .commitCmd "bb".toList false 1
  , .commitCmd "cc".toList false 0 ]

/-- C3 counterexample: in the scenario run, commits "aa" (changelist
1) and "bb" (changelist 3) are both submitted and the foreign
changelist is 2; the claim requires the Object Mirror to be flushed
for both submitted commits and the raised error to name changelist 2,
but the mark of "bb" (the conflict-detecting commit) is never
mirrored — refuting the claim as stated. -/
theorem c3_conflicting_commit_not_mirrored :
    ¬ ((runCopy c3Cmds none).submitted =
         [(1, "aa".toList), (3, "bb".toList)] ∧
       mkMark 1 "aa".toList ∈ (runCopy c3Cmds none).mirroredMarks ∧
       mkMark 3 "bb".toList ∈ (runCopy c3Cmds none).mirroredMarks ∧
       ∃ m2, (runCopy c3Cmds none).err = some (.runtimeError m2) ∧
             strContains m2 (natToStr 2) = true) := by
  intro h
  exact absurd h.2.2.1 (by decide)

/-- C3 witness: the amended theorem applied to the scenario run —
appending a fourth commit changes nothing, and the submitted list
exceeds the mirrored ones by exactly the final (conflict-detecting)
commit. -/
theorem c3_conflict_halts_export_witness :
    runCopy (c3Cmds ++ [FECmd.commitCmd "dd".toList false 0]) none =
      runCopy c3Cmds none ∧
    ∃ pre last, (runCopy c3Cmds none).submitted = pre ++ [last] ∧
      (runCopy c3Cmds none).mirroredMarks =
        pre.map (fun p => mkMark p.1 p.2) :=
  ⟨(c3_conflict_halts_export c3Cmds none (by decide)).1
      [FECmd.commitCmd "dd".toList false 0]
  , (c3_conflict_halts_export c3Cmds none (by decide)).2.1⟩

/-! ## p4gf_fastimport.py : add_commit audit-trailer extraction

`add_commit` re-imports descriptions written by `change_description`,
recovering author/committer identity with
`re.search(Key + ': (.+) (<.+>) (\d+) (.+)')`.  The matcher below
implements exactly this pattern's semantics: leftmost start position,
greedy groups with backtracking, and `.` never matching a newline —
hence every match is confined to one line of the text, and the group
matcher receives the current line. -/

/-- The longest newline-free prefix: the line a match lives in. -/
def firstLine (s : Str) : Str :=
  s.takeWhile (fun c => decide (c ≠ '\n'))

/-- Try candidate sizes from `n` down to 1, largest first — the order
a greedy group with backtracking explores. -/
def scanDown {α : Type} (f : Nat → Option α) : Nat → Option α
  | 0 => none
  | n + 1 =>
    match f (n + 1) with
    | some v => some v
    | none => scanDown f n

/-- Match `(\d+) (.+)` against the rest of the line: a maximal
nonempty digit run (a shorter run would be followed by a digit, not
the required space), a space, then at least one character to the end
of the line. -/
def matchTail3 (r : Str) : Option (Str × Str) :=
  let d := r.takeWhile Char.isDigit
  if d = [] then none
  else
    match r.drop d.length with
    | ' ' :: g4 => if g4 = [] then none else some (d, g4)
    | _ => none

/-- One backtracking candidate for `(<.+>) (\d+) (.+)`: group 2 is
the first `j` characters, which must end in `>`, be at least `<c>`
long, and be followed by a space and a `matchTail3` match. -/
def tryG2 (r : Str) (j : Nat) : Option (Str × Str × Str) :=
  if 3 ≤ j ∧ r.get? (j - 1) = some '>' ∧ r.get? j = some ' ' then
    match matchTail3 (r.drop (j + 1)) with
    | some dt => some (r.take j, dt.1, dt.2)
    | none => none
  else none

/-- Match `(<.+>) (\d+) (.+)` against the rest of the line, greedy in
group 2. -/
def matchTail2 (r : Str) : Option (Str × Str × Str) :=
  match r with
  | '<' :: _ => scanDown (tryG2 r) r.length
  | _ => none

/-- One backtracking candidate for the whole group part
`(.+) (<.+>) (\d+) (.+)`: group 1 is the first `i ≥ 1` characters,
followed by a space and a `matchTail2` match. -/
def tryG1 (r : Str) (i : Nat) : Option (Str × Str × Str × Str) :=
  if 1 ≤ i ∧ r.get? i = some ' ' then
    match matchTail2 (r.drop (i + 1)) with
    | some edt => some (r.take i, edt.1, edt.2.1, edt.2.2)
    | none => none
  else none

/-- Match `(.+) (<.+>) (\d+) (.+)` against a line, greedy in
group 1. -/
def matchGroups (r : Str) : Option (Str × Str × Str × Str) :=
  scanDown (tryG1 r) r.length

/-- Attempt the full pattern `lit(.+) (<.+>) (\d+) (.+)` at the
current position: the literal (e.g. `"Author: "`) must be a prefix,
then the groups match within the current line. -/
def matchAtLine (lit : Str) (s : Str) :
    Option (Str × Str × Str × Str) :=
  if lit.isPrefixOf s then matchGroups (firstLine (s.drop lit.length))
  else none

/-- `re.search` for the trailer pattern: scan start positions left to
right, returning the first full match. -/
def regexSearchKeyLine (lit : Str) : Str → Option (Str × Str × Str × Str)
  | [] => none
  | c :: rest =>
    match matchAtLine lit (c :: rest) with
    | some g => some g
    | none => regexSearchKeyLine lit rest

/-- What `add_commit` emits for author/committer and the description:
the extracted author quadruple (if its regex matched), the extracted
committer quadruple (if its regex matched), whether the committer was
synthesized from the Perforce user instead, and the description
actually written to the `data` block. -/
structure AddCommitOut where
  authorOut : Option (Str × Str × Str × Str)
  committerOut : Option (Str × Str × Str × Str)
  synthesized : Bool
  descOut : Str
  deriving DecidableEq

/-- The audit-trailer extraction of `FastImport.add_commit`: find
the import header; when present, search the suffix for the Author and
Committer patterns and emit the matched groups, stripping message
text down to `description[0:impidx-1]`; when no pattern matched (or
no header), emit a committer synthesized from the Perforce user and
keep the full description. -/
def addCommitExtract (description : Str) : AddCommitOut :=
  match pyFind description importHeader with
  | none =>
    { authorOut := none, committerOut := none
    , synthesized := true, descOut := description }
  | some impidx =>
    let suffix := description.drop impidx
    let am := regexSearchKeyLine "Author: ".toList suffix
    let cm := regexSearchKeyLine "Committer: ".toList suffix
    if am.isSome || cm.isSome then
      { authorOut := am, committerOut := cm, synthesized := false
      , descOut :=
          if impidx = 0 then description.take (description.length - 1)
          else description.take (impidx - 1) }
    else
      { authorOut := none, committerOut := none
      , synthesized := true, descOut := description }

lemma scanDownEq {α : Type} (f : Nat → Option α) (v : α) :
    ∀ (n k : Nat), 1 ≤ k → k ≤ n → f k = some v →
      (∀ j, k < j → j ≤ n → f j = none) →
      scanDown f n = some v := by
  intro n
  induction n with
  | zero => intro k h1 h2 _ _; omega
  | succ m ih =>
    intro k h1 h2 hfk habove
    unfold scanDown
    by_cases hk : k = m + 1
    · rw [← hk, hfk]
    · rw [habove (m + 1) (by omega) (by omega)]
      exact ih k h1 (by omega) hfk (fun j hj1 hj2 => habove j hj1 (by omega))

lemma scanDownNone {α : Type} (f : Nat → Option α)
    (h : ∀ j, f j = none) : ∀ n, scanDown f n = none := by
  intro n
  induction n with
  | zero => rfl
  | succ m ih =>
    unfold scanDown
    rw [h (m + 1)]
    exact ih

lemma isPrefixOfAppendNL (needle : Str) (hnl : '\n' ∉ needle) :
    ∀ (x y : Str), needle.isPrefixOf (x ++ '\n' :: y) = needle.isPrefixOf x := by
  induction needle with
  | nil => intro x y; cases x <;> rfl
  | cons n ns ih =>
    intro x y
    cases x with
    | nil =>
      simp only [List.nil_append, List.isPrefixOf]
      have hn : n ≠ '\n' := fun h => hnl (h ▸ List.mem_cons_self n ns)
      simp [hn]
    | cons a xs =>
      simp only [List.cons_append, List.isPrefixOf, List.append_eq]
      rw [ih (fun h => hnl (List.mem_cons_of_mem n h)) xs y]

lemma isPrefixOfAppendSelf (lit x : Str) : lit.isPrefixOf (lit ++ x) = true := by
  induction lit with
  | nil => cases x <;> rfl
  | cons c cs ih => simp [List.isPrefixOf, ih]

lemma firstLineNoNL (x : Str) (h : '\n' ∉ x) : firstLine x = x := by
  unfold firstLine
  induction x with
  | nil => rfl
  | cons c cs ih =>
    have hc : c ≠ '\n' := fun hh => h (hh ▸ List.mem_cons_self c cs)
    simp only [List.takeWhile_cons]
    rw [decide_eq_true hc]
    simp only [if_true]
    rw [ih (fun hh => h (List.mem_cons_of_mem c hh))]

lemma firstLineAppendNL (x y : Str) (h : '\n' ∉ x) :
    firstLine (x ++ '\n' :: y) = x := by
  unfold firstLine
  induction x with
  | nil => simp [List.takeWhile_cons]
  | cons c cs ih =>
    have hc : c ≠ '\n' := fun hh => h (hh ▸ List.mem_cons_self c cs)
    simp only [List.cons_append, List.takeWhile_cons]
    rw [decide_eq_true hc]
    simp only [if_true]
    rw [ih (fun hh => h (List.mem_cons_of_mem c hh))]

lemma pyFindConsNone (c : Char) (m needle : Str) (hne : needle ≠ [])
    (h : pyFind (c :: m) needle = none) :
    needle.isPrefixOf (c :: m) = false ∧ pyFind m needle = none := by
  rcases needle with _ | ⟨n0, ns⟩
  · exact absurd rfl hne
  · unfold pyFind at h
    by_cases hp : (n0 :: ns).isPrefixOf (c :: m)
    · rw [if_pos hp] at h
      cases h
    · rw [if_neg hp] at h
      refine ⟨Bool.eq_false_iff.mpr hp, ?_⟩
      rcases hrec : pyFind m (n0 :: ns) with _ | i
      · rfl
      · rw [hrec] at h
        cases h

lemma pyFindAppendBoundary (needle : Str) (hne : needle ≠ [])
    (hnl : '\n' ∉ needle) :
    ∀ (m t : Str), strContains m needle = false →
      needle.isPrefixOf t = true →
      pyFind (m ++ '\n' :: t) needle = some (m.length + 1) := by
  intro m
  induction m with
  | nil =>
    intro t hno hpre
    rcases needle with _ | ⟨n0, ns⟩
    · exact absurd rfl hne
    · have hn0 : n0 ≠ '\n' := fun h => hnl (h ▸ List.mem_cons_self n0 ns)
      unfold pyFind
      simp only [List.nil_append]
      rw [if_neg (by simp [List.isPrefixOf, hn0])]
      rcases t with _ | ⟨t0, ts⟩
      · simp [List.isPrefixOf] at hpre
      · unfold pyFind
        rw [if_pos hpre]
        rfl
  | cons c m2 ih =>
    intro t hno hpre
    have hfnone : pyFind (c :: m2) needle = none := by
      rcases hfind : pyFind (c :: m2) needle with _ | i
      · rfl
      · exfalso
        unfold strContains at hno
        rw [hfind] at hno
        simp at hno
    have hparts := pyFindConsNone c m2 needle hne hfnone
    have hrest : strContains m2 needle = false := by
      unfold strContains
      rw [hparts.2]
      rfl
    rcases needle with _ | ⟨n0, ns⟩
    · exact absurd rfl hne
    · have hpref2 : (n0 :: ns).isPrefixOf (c :: (m2 ++ '\n' :: t)) =
          (n0 :: ns).isPrefixOf (c :: m2) := by
        have h3 := isPrefixOfAppendNL (n0 :: ns) hnl (c :: m2) t
        simpa using h3
      unfold pyFind
      simp only [List.cons_append]
      rw [hpref2, if_neg (by rw [hparts.1]; exact Bool.false_ne_true)]
      rw [ih t hrest hpre]
      rfl

lemma matchAtLineNL (lit x y : Str) (hlitnl : '\n' ∉ lit)
    (hx : '\n' ∉ x) :
    matchAtLine lit (x ++ '\n' :: y) = matchAtLine lit x := by
  unfold matchAtLine
  rw [isPrefixOfAppendNL lit hlitnl x y]
  by_cases hp : lit.isPrefixOf x
  · rw [if_pos hp, if_pos hp]
    have hlen : lit.length ≤ x.length :=
      (List.IsPrefix.length_le (List.isPrefixOf_iff_prefix.mp hp))
    rw [List.drop_append_of_le_length hlen]
    have hxd : '\n' ∉ x.drop lit.length :=
      fun hmem => hx (List.mem_of_mem_drop hmem)
    rw [firstLineAppendNL _ y hxd, firstLineNoNL _ hxd]
  · rw [if_neg hp, if_neg hp]

lemma regexSearchNoneAll (lit : Str) (hlit : lit ≠ []) :
    ∀ (s : Str), regexSearchKeyLine lit s = none →
      ∀ n, matchAtLine lit (s.drop n) = none := by
  intro s
  induction s with
  | nil =>
    intro _ n
    rcases lit with _ | ⟨c0, cs⟩
    · exact absurd rfl hlit
    · simp [matchAtLine, List.isPrefixOf, List.drop_nil]
  | cons c rest ih =>
    intro h n
    have hsplit : matchAtLine lit (c :: rest) = none ∧
        regexSearchKeyLine lit rest = none := by
      unfold regexSearchKeyLine at h
      rcases hm : matchAtLine lit (c :: rest) with _ | g
      · rw [hm] at h
        exact ⟨rfl, h⟩
      · rw [hm] at h
        cases h
    cases n with
    | zero => exact hsplit.1
    | succ n2 => exact ih hsplit.2 n2

lemma regexSearchConsEq (lit : Str) (c : Char) (rest : Str) :
    regexSearchKeyLine lit (c :: rest) =
      (match matchAtLine lit (c :: rest) with
       | some g => some g
       | none => regexSearchKeyLine lit rest) := rfl

lemma regexSearchSkipAll (lit : Str) :
    ∀ (a b : Str),
      (∀ n, n < a.length → matchAtLine lit (a.drop n ++ b) = none) →
      regexSearchKeyLine lit (a ++ b) = regexSearchKeyLine lit b := by
  intro a
  induction a with
  | nil => intro b _; rfl
  | cons c a2 ih =>
    intro b hfail
    have h0 : matchAtLine lit (c :: (a2 ++ b)) = none := hfail 0 (by simp)
    rw [List.cons_append, regexSearchConsEq, h0]
    exact ih b (fun n hn => hfail (n + 1) (by simpa using hn))

lemma getAppendLow (x z : Str) (j : Nat) (hj : j < x.length) :
    (x ++ z).get? j = x.get? j := List.get?_append hj

lemma getAppendConsAt (x : Str) (c0 : Char) (y : Str) :
    (x ++ c0 :: y).get? x.length = some c0 := by
  rw [List.get?_append_right le_rfl]
  simp

lemma getAppendConsHigh (x : Str) (c0 : Char) (y : Str) (j : Nat)
    (hj : x.length < j) :
    (x ++ c0 :: y).get? j = y.get? (j - x.length - 1) := by
  rw [List.get?_append_right (by omega)]
  rcases hm : j - x.length with _ | m
  · omega
  · simp

lemma dropAppendCons (x : Str) (c0 : Char) (y : Str) :
    (x ++ c0 :: y).drop (x.length + 1) = y := by
  have h1 : x ++ c0 :: y = (x ++ [c0]) ++ y := by simp
  rw [h1]
  have h2 : (x ++ [c0]).length = x.length + 1 := by simp
  rw [← h2, List.drop_left]

lemma takeWhileAllStop (p : Char → Bool) (x : Str) (c0 : Char) (z : Str)
    (hall : x.all p = true) (hy : p c0 = false) :
    (x ++ c0 :: z).takeWhile p = x := by
  induction x with
  | nil => simp [List.takeWhile_cons, hy]
  | cons a xs ih =>
    simp only [List.all_cons, Bool.and_eq_true] at hall
    simp [List.takeWhile_cons, hall.1, ih hall.2]

lemma matchTail2NotLt (r : Str) (h : r.head? ≠ some '<') :
    matchTail2 r = none := by
  cases r with
  | nil => rfl
  | cons c cs =>
    unfold matchTail2
    split
    · next heq =>
      exfalso
      injection heq with h1 _
      exact h (by rw [h1]; rfl)
    · rfl

lemma matchTail2NoSpace (r : Str) (h : ' ' ∉ r) : matchTail2 r = none := by
  cases r with
  | nil => rfl
  | cons c cs =>
    unfold matchTail2
    split
    · next heq =>
      apply scanDownNone
      intro j
      unfold tryG2
      rw [if_neg]
      intro hand
      exact h (List.get?_mem hand.2.2)
    · rfl

lemma matchTail3Fields (d t : Str) (hd : d ≠ [])
    (hddig : d.all Char.isDigit = true) (ht : t ≠ []) :
    matchTail3 (d ++ ' ' :: t) = some (d, t) := by
  unfold matchTail3
  rw [takeWhileAllStop Char.isDigit d ' ' t hddig (by decide)]
  rw [if_neg hd]
  rw [List.drop_left]
  exact if_neg ht

lemma matchTail2Fields (e d t : Str)
    (hehead : e.head? = some '<')
    (helast : e.get? (e.length - 1) = some '>')
    (helen : 3 ≤ e.length)
    (hesp : ' ' ∉ e)
    (hd : d ≠ []) (hddig : d.all Char.isDigit = true)
    (ht : t ≠ []) (htsp : ' ' ∉ t) :
    matchTail2 (e ++ ' ' :: (d ++ ' ' :: t)) = some (e, d, t) := by
  rcases e with _ | ⟨e0, etail⟩
  · simp at helen
  · have he0 : e0 = '<' := by
      simpa using hehead
    subst he0
    unfold matchTail2
    split
    · next heq =>
      apply scanDownEq _ _ _ (('<' :: etail).length) (by omega)
        (by simp)
      · -- the candidate at j = e.length succeeds
        unfold tryG2
        rw [if_pos ?hcond]
        case hcond =>
          refine ⟨helen, ?_, ?_⟩
          · rw [getAppendLow _ _ _ (by omega)]
            exact helast
          · exact getAppendConsAt _ ' ' _
        rw [dropAppendCons]
        rw [matchTail3Fields d t hd hddig ht]
        dsimp only
        rw [List.take_left]
      · -- all longer candidates fail
        intro j hj1 hj2
        unfold tryG2
        rw [if_neg]
        rintro ⟨hj3, hgt, hsp⟩
        -- position j holds a space strictly beyond e
        rw [getAppendConsHigh _ _ _ j hj1] at hsp
        rcases Nat.lt_trichotomy (j - ('<' :: etail).length - 1) d.length
          with hm | hm | hm
        · rw [getAppendLow _ _ _ hm] at hsp
          have hmem := List.get?_mem hsp
          have hdig := List.all_eq_true.mp hddig ' ' hmem
          simp at hdig
        · -- j is the space after d: then position j-1 is d's last digit,
          -- which cannot be the required '>'
          have hj4 : j = ('<' :: etail).length + 1 + d.length := by omega
          have hd1 : 1 ≤ d.length := by
            rcases d with _ | _
            · exact absurd rfl hd
            · simp
          rw [getAppendConsHigh _ _ _ (j - 1) (by omega)] at hgt
          rw [getAppendLow _ _ _ (by omega)] at hgt
          have hmem := List.get?_mem hgt
          have hdig := List.all_eq_true.mp hddig '>' hmem
          simp at hdig
        · rw [getAppendConsHigh _ _ _ _ hm] at hsp
          rcases hval : t.get? (j - ('<' :: etail).length - 1 - d.length - 1)
            with _ | c2
          · rw [hval] at hsp
            cases hsp
          · rw [hval] at hsp
            injection hsp with hc2
            exact htsp (hc2 ▸ List.get?_mem hval)
    · next hne =>
      exfalso
      exact hne (etail ++ ' ' :: (d ++ ' ' :: t)) rfl

lemma matchGroupsFields (u e d t : Str)
    (hu : u ≠ [])
    (hehead : e.head? = some '<')
    (helast : e.get? (e.length - 1) = some '>')
    (helen : 3 ≤ e.length)
    (hesp : ' ' ∉ e)
    (hd : d ≠ []) (hddig : d.all Char.isDigit = true)
    (ht : t ≠ []) (htsp : ' ' ∉ t) :
    matchGroups (u ++ ' ' :: (e ++ ' ' :: (d ++ ' ' :: t))) =
      some (u, e, d, t) := by
  unfold matchGroups
  have hu1 : 1 ≤ u.length := by
    rcases u with _ | _
    · exact absurd rfl hu
    · simp
  apply scanDownEq _ _ _ u.length hu1 (by simp)
  · -- candidate at i = u.length succeeds
    unfold tryG1
    rw [if_pos ⟨hu1, getAppendConsAt _ ' ' _⟩]
    rw [dropAppendCons]
    rw [matchTail2Fields e d t hehead helast helen hesp hd hddig ht htsp]
    dsimp only
    rw [List.take_left]
  · -- all longer candidates fail
    intro j hj1 hj2
    unfold tryG1
    by_cases hsp : (u ++ ' ' :: (e ++ ' ' :: (d ++ ' ' :: t))).get? j = some ' '
    · -- a space beyond u: right after e, or right after d
      rw [getAppendConsHigh _ _ _ j hj1] at hsp
      rcases Nat.lt_trichotomy (j - u.length - 1) e.length with hm | hm | hm
      · exfalso
        rw [getAppendLow _ _ _ hm] at hsp
        exact hesp (List.get?_mem hsp)
      · -- j is the space after e: the tail there starts with a digit, not <
        rw [if_pos ⟨by omega, by
          rw [getAppendConsHigh _ _ _ j hj1, hm, getAppendConsAt]⟩]
        have hdrop : (u ++ ' ' :: (e ++ ' ' :: (d ++ ' ' :: t))).drop (j + 1)
            = d ++ ' ' :: t := by
          have hj3 : j = u.length + 1 + e.length := by omega
          rw [hj3]
          have hassoc : u ++ ' ' :: (e ++ ' ' :: (d ++ ' ' :: t))
              = (u ++ ' ' :: e) ++ ' ' :: (d ++ ' ' :: t) := by simp
          rw [hassoc]
          have hlen2 : (u ++ ' ' :: e).length = u.length + 1 + e.length := by
            simp
            omega
          rw [← hlen2]
          exact dropAppendCons _ ' ' _
        rw [hdrop]
        rw [matchTail2NotLt (d ++ ' ' :: t) ?hdd]
        case hdd =>
          rcases d with _ | ⟨d0, ds⟩
          · exact absurd rfl hd
          · simp only [List.all_cons, Bool.and_eq_true] at hddig
            have : d0 ≠ '<' := by
              intro hdc
              rw [hdc] at hddig
              simp at hddig
            simpa using this
      · -- j is beyond e: inside d (digit), the space after d, or inside t
        rcases Nat.lt_trichotomy (j - u.length - 1 - e.length - 1) d.length
          with hm2 | hm2 | hm2
        · exfalso
          rw [getAppendConsHigh _ _ _ _ hm, getAppendLow _ _ _ hm2] at hsp
          have hmem := List.get?_mem hsp
          have hdig := List.all_eq_true.mp hddig ' ' hmem
          simp at hdig
        · -- j is the space after d: the tail there is t, which has no space
          rw [if_pos ⟨by omega, by
            rw [getAppendConsHigh _ _ _ j hj1,
                getAppendConsHigh _ _ _ _ hm, hm2, getAppendConsAt]⟩]
          have hdrop : (u ++ ' ' :: (e ++ ' ' :: (d ++ ' ' :: t))).drop (j + 1)
              = t := by
            have hj3 : j = u.length + 1 + e.length + 1 + d.length := by omega
            rw [hj3]
            have hassoc : u ++ ' ' :: (e ++ ' ' :: (d ++ ' ' :: t))
                = (u ++ ' ' :: e ++ ' ' :: d) ++ ' ' :: t := by simp
            rw [hassoc]
            have hlen2 : (u ++ ' ' :: e ++ ' ' :: d).length
                = u.length + 1 + e.length + 1 + d.length := by
              simp
              omega
            rw [← hlen2]
            exact dropAppendCons _ ' ' _
          rw [hdrop]
          rw [matchTail2NoSpace t htsp]
        · exfalso
          rw [getAppendConsHigh _ _ _ _ hm, getAppendConsHigh _ _ _ _ hm2]
            at hsp
          rcases hval : t.get? (j - u.length - 1 - e.length - 1 - d.length - 1)
            with _ | c2
          · rw [hval] at hsp
            cases hsp
          · rw [hval] at hsp
            injection hsp with hc2
            exact htsp (hc2 ▸ List.get?_mem hval)
    · rw [if_neg (fun hand => hsp hand.2)]

lemma regexSearchStepNeHead (l0 : Char) (ls : Str) (c : Char) (rest : Str)
    (h : l0 ≠ c) :
    regexSearchKeyLine (l0 :: ls) (c :: rest) =
      regexSearchKeyLine (l0 :: ls) rest := by
  rw [regexSearchConsEq]
  unfold matchAtLine
  rw [if_neg (by simp [List.isPrefixOf, h])]

lemma regexSearchHitAppend (lit X : Str) (hlit : lit ≠ [])
    (g : Str × Str × Str × Str) (hg : matchGroups (firstLine X) = some g) :
    regexSearchKeyLine lit (lit ++ X) = some g := by
  rcases lit with _ | ⟨l0, ls⟩
  · exact absurd rfl hlit
  · rw [List.cons_append, regexSearchConsEq]
    have hm : matchAtLine (l0 :: ls) (l0 :: (ls ++ X)) = some g := by
      unfold matchAtLine
      rw [show (l0 :: (ls ++ X)) = (l0 :: ls) ++ X from rfl]
      rw [if_pos (isPrefixOfAppendSelf (l0 :: ls) X), List.drop_left]
      exact hg
    rw [hm]

lemma regexSearchStepNoHead (lit : Str) (hlit : lit ≠ []) (c : Char)
    (rest : Str) (h : lit.head? ≠ some c) :
    regexSearchKeyLine lit (c :: rest) = regexSearchKeyLine lit rest := by
  rcases lit with _ | ⟨l0, ls⟩
  · exact absurd rfl hlit
  · exact regexSearchStepNeHead l0 ls c rest (fun he => h (by rw [he]; rfl))

lemma regexSearchSkipNoHead (lit : Str) (hlit : lit ≠ []) :
    ∀ (a b : Str), (∀ c, c ∈ a → lit.head? ≠ some c) →
      regexSearchKeyLine lit (a ++ b) = regexSearchKeyLine lit b := by
  intro a
  induction a with
  | nil => intro b _; rfl
  | cons c a2 ih =>
    intro b h
    rw [List.cons_append,
      regexSearchStepNoHead lit hlit c (a2 ++ b) (h c (List.mem_cons_self c a2))]
    exact ih b (fun x hx => h x (List.mem_cons_of_mem c hx))

lemma personLineNoNL (u e d t : Str) (hu : '\n' ∉ u) (he : '\n' ∉ e)
    (hd : d.all Char.isDigit = true) (ht : '\n' ∉ t) :
    '\n' ∉ u ++ ' ' :: (e ++ ' ' :: (d ++ ' ' :: t)) := by
  intro hmem
  simp only [List.mem_append, List.mem_cons] at hmem
  rcases hmem with h | h | h | h | h | h | h
  · exact hu h
  · exact absurd h (by decide)
  · exact he h
  · exact absurd h (by decide)
  · have h2 := List.all_eq_true.mp hd '\n' h
    simp at h2
  · exact absurd h (by decide)
  · exact ht h

lemma addCommitExtractTrailer (msg AF CF T : Str)
    (gA gC : Str × Str × Str × Str)
    (hmsg : strContains msg importHeader = false)
    (hAFnl : '\n' ∉ AF) (hCFnl : '\n' ∉ CF)
    (hA : matchGroups AF = some gA)
    (hC : matchGroups CF = some gC)
    (hAFnoC : regexSearchKeyLine "Committer: ".toList AF = none) :
    addCommitExtract
      (msg ++ '\n' :: (importHeader ++ '\n' ::
        ((' ' :: ("Author: ".toList ++ AF)) ++ '\n' ::
          ((' ' :: ("Committer: ".toList ++ CF)) ++ '\n' :: T)))) =
      { authorOut := some gA, committerOut := some gC
      , synthesized := false, descOut := msg } := by
  have hshapeA :
      (importHeader ++ '\n' ::
        ((' ' :: ("Author: ".toList ++ AF)) ++ '\n' ::
          ((' ' :: ("Committer: ".toList ++ CF)) ++ '\n' :: T)))
      = "Imported from Git\n ".toList ++
          ("Author: ".toList ++ (AF ++ '\n' ::
            ((' ' :: ("Committer: ".toList ++ CF)) ++ '\n' :: T))) := rfl
  have hshapeC :
      "Imported from Git\n ".toList ++
          ("Author: ".toList ++ (AF ++ '\n' ::
            ((' ' :: ("Committer: ".toList ++ CF)) ++ '\n' :: T)))
      = "Imported from Git\n Author: ".toList ++ (AF ++ '\n' ::
            ((' ' :: ("Committer: ".toList ++ CF)) ++ '\n' :: T)) := rfl
  have hAm : regexSearchKeyLine "Author: ".toList
      (importHeader ++ '\n' ::
        ((' ' :: ("Author: ".toList ++ AF)) ++ '\n' ::
          ((' ' :: ("Committer: ".toList ++ CF)) ++ '\n' :: T))) = some gA := by
    rw [hshapeA]
    rw [regexSearchSkipNoHead "Author: ".toList (by decide)
      "Imported from Git\n ".toList _ (by decide)]
    exact regexSearchHitAppend "Author: ".toList _ (by decide) gA
      (by rw [firstLineAppendNL AF _ hAFnl]; exact hA)
  have hCm : regexSearchKeyLine "Committer: ".toList
      (importHeader ++ '\n' ::
        ((' ' :: ("Author: ".toList ++ AF)) ++ '\n' ::
          ((' ' :: ("Committer: ".toList ++ CF)) ++ '\n' :: T))) = some gC := by
    rw [hshapeA, hshapeC]
    rw [regexSearchSkipNoHead "Committer: ".toList (by decide)
      "Imported from Git\n Author: ".toList _ (by decide)]
    have hfail : ∀ n, n < AF.length →
        matchAtLine "Committer: ".toList
          (AF.drop n ++ '\n' ::
            ((' ' :: ("Committer: ".toList ++ CF)) ++ '\n' :: T)) = none := by
      intro n hn
      rw [matchAtLineNL "Committer: ".toList (AF.drop n) _ (by decide)
        (fun hmem => hAFnl (List.mem_of_mem_drop hmem))]
      exact regexSearchNoneAll "Committer: ".toList (by decide) AF hAFnoC n
    rw [regexSearchSkipAll "Committer: ".toList AF _ hfail]
    rw [regexSearchStepNoHead "Committer: ".toList (by decide) '\n' _ (by decide)]
    show regexSearchKeyLine "Committer: ".toList
      (' ' :: (("Committer: ".toList ++ CF) ++ '\n' :: T)) = some gC
    rw [regexSearchStepNoHead "Committer: ".toList (by decide) ' ' _ (by decide)]
    show regexSearchKeyLine "Committer: ".toList
      ("Committer: ".toList ++ (CF ++ '\n' :: T)) = some gC
    exact regexSearchHitAppend "Committer: ".toList _ (by decide) gC
      (by rw [firstLineAppendNL CF _ hCFnl]; exact hC)
  have hfind : pyFind
      (msg ++ '\n' :: (importHeader ++ '\n' ::
        ((' ' :: ("Author: ".toList ++ AF)) ++ '\n' ::
          ((' ' :: ("Committer: ".toList ++ CF)) ++ '\n' :: T))))
      importHeader = some (msg.length + 1) :=
    pyFindAppendBoundary importHeader (by decide) (by decide) msg _ hmsg
      (isPrefixOfAppendSelf importHeader _)
  unfold addCommitExtract
  rw [hfind]
  dsimp only
  rw [dropAppendCons]
  rw [hAm, hCm]
  simp only [Option.isSome_some, Bool.or_self]
  rw [if_pos trivial]
  rw [if_neg (by omega : ¬(msg.length + 1 = 0))]
  rw [Nat.add_sub_cancel]
  rw [List.take_left]

/-- C9: for a commit whose message contains no import-header text of
its own, whose author and committer fields are well-formed fast-export
fields (nonempty newline-free name, space-free `<...>` email, nonempty
all-digit epoch, nonempty space- and newline-free timezone) and whose
author line contains no committer-trailer text, re-importing
`change_description`'s output through `add_commit` reproduces the
original author and committer name, email, epoch and timezone and
emits the original message with the trailer stripped. -/
theorem c9_audit_trailer_roundtrip (commit : GfCommit) (pusher authorP4 : Str)
    (hmsg : strContains commit.data importHeader = false)
    (hau : commit.author.user ≠ [])
    (haunl : '\n' ∉ commit.author.user)
    (haeh : commit.author.email.head? = some '<')
    (hael : commit.author.email.get? (commit.author.email.length - 1) = some '>')
    (haelen : 3 ≤ commit.author.email.length)
    (haesp : ' ' ∉ commit.author.email)
    (haenl : '\n' ∉ commit.author.email)
    (had : commit.author.date ≠ [])
    (haddig : commit.author.date.all Char.isDigit = true)
    (hat : commit.author.timezone ≠ [])
    (hatsp : ' ' ∉ commit.author.timezone)
    (hatnl : '\n' ∉ commit.author.timezone)
    (hcu : commit.committer.user ≠ [])
    (hcunl : '\n' ∉ commit.committer.user)
    (hceh : commit.committer.email.head? = some '<')
    (hcel : commit.committer.email.get? (commit.committer.email.length - 1)
      = some '>')
    (hcelen : 3 ≤ commit.committer.email.length)
    (hcesp : ' ' ∉ commit.committer.email)
    (hcenl : '\n' ∉ commit.committer.email)
    (hcd : commit.committer.date ≠ [])
    (hcddig : commit.committer.date.all Char.isDigit = true)
    (hct : commit.committer.timezone ≠ [])
    (hctsp : ' ' ∉ commit.committer.timezone)
    (hctnl : '\n' ∉ commit.committer.timezone)
    (hAFnoC : regexSearchKeyLine "Committer: ".toList
      (commit.author.user ++ ' ' :: (commit.author.email ++ ' ' ::
        (commit.author.date ++ ' ' :: commit.author.timezone))) = none) :
    addCommitExtract (changeDescription commit pusher authorP4) =
      { authorOut := some (commit.author.user, commit.author.email,
          commit.author.date, commit.author.timezone)
      , committerOut := some (commit.committer.user, commit.committer.email,
          commit.committer.date, commit.committer.timezone)
      , synthesized := false
      , descOut := commit.data } := by
  have hAFnl : '\n' ∉ commit.author.user ++ ' ' :: (commit.author.email ++ ' ' ::
      (commit.author.date ++ ' ' :: commit.author.timezone)) :=
    personLineNoNL _ _ _ _ haunl haenl haddig hatnl
  have hCFnl : '\n' ∉ commit.committer.user ++ ' ' ::
      (commit.committer.email ++ ' ' ::
        (commit.committer.date ++ ' ' :: commit.committer.timezone)) :=
    personLineNoNL _ _ _ _ hcunl hcenl hcddig hctnl
  have hA : matchGroups (commit.author.user ++ ' ' :: (commit.author.email
      ++ ' ' :: (commit.author.date ++ ' ' :: commit.author.timezone)))
      = some (commit.author.user, commit.author.email, commit.author.date,
          commit.author.timezone) :=
    matchGroupsFields _ _ _ _ hau haeh hael haelen haesp had haddig hat hatsp
  have hC : matchGroups (commit.committer.user ++ ' ' ::
      (commit.committer.email ++ ' ' ::
        (commit.committer.date ++ ' ' :: commit.committer.timezone)))
      = some (commit.committer.user, commit.committer.email,
          commit.committer.date, commit.committer.timezone) :=
    matchGroupsFields _ _ _ _ hcu hceh hcel hcelen hcesp hcd hcddig hct hctsp
  by_cases hp : pusher ≠ authorP4
  · have hdesc : changeDescription commit pusher authorP4 =
        commit.data ++ '\n' :: (importHeader ++ '\n' ::
          ((' ' :: ("Author: ".toList ++ (commit.author.user ++ ' ' ::
            (commit.author.email ++ ' ' :: (commit.author.date ++ ' ' ::
              commit.author.timezone))))) ++ '\n' ::
            ((' ' :: ("Committer: ".toList ++ (commit.committer.user ++ ' ' ::
              (commit.committer.email ++ ' ' :: (commit.committer.date ++ ' ' ::
                commit.committer.timezone))))) ++ '\n' ::
              (" Pusher: ".toList ++ (pusher ++ '\n' ::
                (" sha1: ".toList ++ commit.sha1)))))) := by
      unfold changeDescription
      rw [if_pos hp]
      simp only [joinChar, List.cons_append, List.nil_append, List.append_nil,
        List.append_assoc]
      rfl
    rw [hdesc]
    exact addCommitExtractTrailer _ _ _ _ _ _ hmsg hAFnl hCFnl hA hC hAFnoC
  · have hdesc : changeDescription commit pusher authorP4 =
        commit.data ++ '\n' :: (importHeader ++ '\n' ::
          ((' ' :: ("Author: ".toList ++ (commit.author.user ++ ' ' ::
            (commit.author.email ++ ' ' :: (commit.author.date ++ ' ' ::
              commit.author.timezone))))) ++ '\n' ::
            ((' ' :: ("Committer: ".toList ++ (commit.committer.user ++ ' ' ::
              (commit.committer.email ++ ' ' :: (commit.committer.date ++ ' ' ::
                commit.committer.timezone))))) ++ '\n' ::
              (" sha1: ".toList ++ commit.sha1)))) := by
      unfold changeDescription
      rw [if_neg hp]
      simp only [joinChar, List.cons_append, List.nil_append, List.append_nil,
        List.append_assoc]
      rfl
    rw [hdesc]
    exact addCommitExtractTrailer _ _ _ _ _ _ hmsg hAFnl hCFnl hA hC hAFnoC

/-- A concrete commit for the C9 witness. -/
def c9Commit : GfCommit :=
  { sha1 := "ab12".toList
  , data := "Fix the bug".toList
  , author := { user := "Bob S".toList, email := "<b@x>".toList
              , date := "12345".toList, timezone := "-0700".toList }
  , committer := { user := "Ann".toList, email := "<a@y>".toList
                 , date := "678".toList, timezone := "+0000".toList }
  , merge := false
  , files := [] }

/-- Witness for C9 at a concrete commit. -/
theorem c9_audit_trailer_roundtrip_witness :
    addCommitExtract (changeDescription c9Commit "alice".toList "alice".toList) =
      { authorOut := some ("Bob S".toList, "<b@x>".toList, "12345".toList,
          "-0700".toList)
      , committerOut := some ("Ann".toList, "<a@y>".toList, "678".toList,
          "+0000".toList)
      , synthesized := false
      , descOut := "Fix the bug".toList } :=
  c9_audit_trailer_roundtrip c9Commit "alice".toList "alice".toList
    (by decide) (by decide) (by decide) (by decide) (by decide) (by decide)
    (by decide) (by decide) (by decide) (by decide) (by decide) (by decide)
    (by decide) (by decide) (by decide) (by decide) (by decide) (by decide)
    (by decide) (by decide) (by decide) (by decide) (by decide) (by decide)
    (by decide) (by decide)
